import Mathlib

/-!
Verification of the drone delivery optimizer (src/algorithm.js).

The development has two layers.

* `Hav` models the numeric distance computation (`calculateDistance`,
  `toRad`, `buildDistanceMatrix`) over the real numbers, since the source
  uses transcendental functions (`Math.sin`, `Math.cos`, `Math.atan2`,
  `Math.sqrt`).

* `DDO` models the routing algorithm (`sortZonesByPriority`,
  `nearestNeighborTSP`, `twoOptOptimize`, `reverseSegment`,
  `calculateRouteDistance`, `optimize`, `getResults`) together with the
  optimizer state (`zones`, `drones`, `distanceMatrix`, `baseLocation`)
  and the mutating entry points `setBase`, `addZone`, `addDrone`, `clear`.
  This layer is generic over a linear ordered field `K` and over the
  pairwise distance function `dist` (standing for `calculateDistance`);
  instantiating `K := ℝ` and `dist := Hav.calculateDistance` yields the
  source pipeline, while `K := ℚ` with a concrete `dist` makes everything
  kernel-computable for concrete runs.
-/

namespace Hav

/-- Model of `toRad(degrees)`: `degrees * (Math.PI / 180)`. -/
noncomputable def toRad (degrees : ℝ) : ℝ := degrees * (Real.pi / 180)

/-- Model of JavaScript `Math.atan2(y, x)` (standard mathematical
definition by sign cases; the source only applies it to nonnegative
arguments). -/
noncomputable def atan2 (y x : ℝ) : ℝ :=
  if 0 < x then Real.arctan (y / x)
  else if x < 0 ∧ 0 ≤ y then Real.arctan (y / x) + Real.pi
  else if x < 0 then Real.arctan (y / x) - Real.pi
  else if 0 < y then Real.pi / 2
  else if y < 0 then -(Real.pi / 2)
  else 0

/-- Model of `calculateDistance(lat1, lng1, lat2, lng2)`: the haversine
formula with Earth radius 6371 km, exactly as in the source. -/
noncomputable def calculateDistance (lat1 lng1 lat2 lng2 : ℝ) : ℝ :=
  let R : ℝ := 6371
  let dLat := toRad (lat2 - lat1)
  let dLng := toRad (lng2 - lng1)
  let a := Real.sin (dLat / 2) * Real.sin (dLat / 2) +
    Real.cos (toRad lat1) * Real.cos (toRad lat2) *
    Real.sin (dLng / 2) * Real.sin (dLng / 2)
  let c := 2 * atan2 (Real.sqrt a) (Real.sqrt (1 - a))
  R * c

theorem toRad_sub_comm (u v : ℝ) : toRad (u - v) = -toRad (v - u) := by
  unfold toRad; ring

theorem sin_toRad_sub_sq (u v : ℝ) :
    Real.sin (toRad (u - v) / 2) * Real.sin (toRad (u - v) / 2) =
      Real.sin (toRad (v - u) / 2) * Real.sin (toRad (v - u) / 2) := by
  rw [toRad_sub_comm, neg_div, Real.sin_neg]
  ring

/-- `calculateDistance` is symmetric in its two coordinate pairs. -/
theorem calculateDistance_symm (lat1 lng1 lat2 lng2 : ℝ) :
    calculateDistance lat1 lng1 lat2 lng2 = calculateDistance lat2 lng2 lat1 lng1 := by
  unfold calculateDistance
  dsimp only
  rw [sin_toRad_sub_sq lat2 lat1, toRad_sub_comm lng2 lng1, neg_div, Real.sin_neg]
  ring_nf

/-- Model of `buildDistanceMatrix()` applied to a list of coordinate
pairs: an `n × n` matrix whose off-diagonal entries are haversine
distances and whose diagonal entries stay at their initial `0`. -/
noncomputable def buildDistanceMatrix (pts : List (ℝ × ℝ)) : List (List ℝ) :=
  (List.range pts.length).map fun i =>
    (List.range pts.length).map fun j =>
      if i = j then 0
      else calculateDistance (pts.getD i (0, 0)).1 (pts.getD i (0, 0)).2
        (pts.getD j (0, 0)).1 (pts.getD j (0, 0)).2

/-- Matrix entry access, modelling `this.distanceMatrix[i][j]`. -/
def mGet {K : Type} [Zero K] (m : List (List K)) (i j : ℕ) : K :=
  (m.getD i []).getD j 0

/-- Two concrete locations for exercising `buildDistanceMatrix`. -/
noncomputable def exPts : List (ℝ × ℝ) := [(0, 0), (1, 2)]

theorem buildDistanceMatrix_entry (pts : List (ℝ × ℝ)) {i j : ℕ}
    (hi : i < pts.length) (hj : j < pts.length) :
    mGet (buildDistanceMatrix pts) i j =
      if i = j then 0
      else calculateDistance (pts.getD i (0, 0)).1 (pts.getD i (0, 0)).2
        (pts.getD j (0, 0)).1 (pts.getD j (0, 0)).2 := by
  simp [mGet, buildDistanceMatrix, List.getD_eq_getElem?_getD, List.getElem?_map,
    List.getElem?_range, hi, hj]

end Hav

namespace DDO

/-- Model of the `Zone` class: `id`, `priority` (1=critical, 2=moderate,
3=low; 0 for the base sentinel), `demand`, coordinates, `served` flag.
Numeric fields live in a linear ordered field `K` (JavaScript numbers). -/
structure Zone (K : Type) where
  id : ℤ
  priority : K
  demand : K
  lat : K
  lng : K
  served : Bool

instance {K : Type} [Zero K] : Inhabited (Zone K) :=
  ⟨⟨0, 0, 0, 0, 0, false⟩⟩

/-- Model of the `Drone` class. -/
structure Drone (K : Type) where
  id : ℤ
  batteryCapacity : K
  payloadCapacity : K
  route : List ℕ
  totalDistance : K
  totalDelivered : K

/-- The `Drone` constructor: `route = []`, `totalDistance = 0`,
`totalDelivered = 0`. -/
def Drone.make {K : Type} [Zero K] (id : ℤ) (batteryCapacity payloadCapacity : K) : Drone K :=
  ⟨id, batteryCapacity, payloadCapacity, [], 0, 0⟩

/-- Model of the `DroneDeliveryOptimizer` instance state.  The wall-clock
field `executionTime` is not modelled (real time). -/
structure State (K : Type) where
  zones : List (Zone K)
  drones : List (Drone K)
  distanceMatrix : List (List K)
  baseLocation : Option (K × K)

/-- The `DroneDeliveryOptimizer` constructor. -/
def State.empty {K : Type} : State K := ⟨[], [], [], none⟩

variable {K : Type} [LinearOrderedField K]

/-- Model of `setBase(lat, lng)`: records the base location and rebuilds
the zone list as the fresh base entry (id 0, priority 0, demand 0,
unserved) followed by the previous entries whose id is not 0, in order. -/
def setBase (lat lng : K) (s : State K) : State K :=
  { s with
    baseLocation := some (lat, lng)
    zones := ⟨0, 0, 0, lat, lng, false⟩ :: s.zones.filter fun z => z.id != 0 }

/-- Model of `addZone(zone)`: overwrites `zone.id` with
`(non-base count) + 1` and appends. No validation is performed. -/
def addZone (z : Zone K) (s : State K) : State K :=
  { s with
    zones := s.zones ++ [{ z with id := ((s.zones.filter fun w => w.id != 0).length : ℤ) + 1 }] }

/-- Model of `addDrone(drone)`: appends unconditionally. No validation is
performed. -/
def addDrone (d : Drone K) (s : State K) : State K :=
  { s with drones := s.drones ++ [d] }

/-- Model of `clear()`. -/
def clear (_s : State K) : State K :=
  { zones := [], drones := [], distanceMatrix := [], baseLocation := none }

/-- Model of `buildDistanceMatrix()`: an `n × n` matrix with zero diagonal
and `dist` (standing for `calculateDistance`) off the diagonal, indexed by
the current position of each zone in `zones`. -/
def buildDistanceMatrix (dist : K → K → K → K → K) (zones : List (Zone K)) : List (List K) :=
  (List.range zones.length).map fun i =>
    (List.range zones.length).map fun j =>
      if i = j then 0
      else dist (zones.getD i default).lat (zones.getD i default).lng
        (zones.getD j default).lat (zones.getD j default).lng

/-- Matrix entry access, modelling `this.distanceMatrix[i][j]`. -/
def mGet (m : List (List K)) (i j : ℕ) : K :=
  (m.getD i []).getD j 0

/-- The zone comparator of `sortZonesByPriority` returns a negative
number, i.e. places `a` strictly before `b`, exactly when `a` has a lower
priority number, or an equal priority number and a larger demand. -/
def zoneBefore (a b : Zone K) : Bool :=
  decide (a.priority < b.priority) ||
    (decide (a.priority = b.priority) && decide (b.demand < a.demand))

/-- Stable insertion of a zone into an already-sorted list: `a` is placed
before the first element it must strictly precede, hence after all
earlier elements with an equal comparator key. -/
def insertZone (a : Zone K) : List (Zone K) → List (Zone K)
  | [] => [a]
  | b :: t => if zoneBefore a b then a :: b :: t else b :: insertZone a t

/-- Model of `sortZonesByPriority()`: the base entry `zones[0]` stays
fixed and the rest is stable-sorted by (priority ascending, demand
descending).  JavaScript `Array.prototype.sort` is stable and the
comparator induces a total preorder, so its output is exactly this stable
insertion sort.  (On an empty list the source would produce
`[undefined]` and `optimize()` would then throw; the `optimize` model
raises the corresponding error before using this function.) -/
def sortZonesByPriority : List (Zone K) → List (Zone K)
  | [] => []
  | base :: rest => base :: rest.foldl (fun acc z => insertZone z acc) []

/-- `currentLoad` as computed inside `nearestNeighborTSP`: the sum of the
demands of the non-base indices already in the route. -/
def currentLoad (zones : List (Zone K)) (route : List ℕ) : K :=
  ((route.filter fun idx => idx != 0).map fun idx => (zones.getD idx default).demand).sum

/-- Comparison against `minEffectiveDistance`, which starts at
`Infinity` (modelled by `none`). -/
def effLt (e : K) : Option K → Bool
  | none => true
  | some m => decide (e < m)

/-- The body of the candidate scan of `nearestNeighborTSP` for one
`zoneIdx` of `availableZones`, threading the `(nearest,
minEffectiveDistance)` accumulator. -/
def nnStep (M : ℕ → ℕ → K) (zones : List (Zone K)) (battery payload : K)
    (route visited : List ℕ) (cur : ℕ) (currentDistance : K)
    (acc : Option ℕ × Option K) (zoneIdx : ℕ) : Option ℕ × Option K :=
  if visited.contains zoneIdx then acc
  else
    let d := M cur zoneIdx
    let zone := zones.getD zoneIdx default
    let effectiveDist := d / zone.priority
    let returnDist := M zoneIdx 0
    let totalDist := currentDistance + d + returnDist
    if decide (totalDist ≤ battery) && effLt effectiveDist acc.2 then
      if decide (currentLoad zones route + zone.demand ≤ payload) then
        (some zoneIdx, some effectiveDist)
      else acc
    else acc

/-- One scan of `availableZones` inside the `while` loop of
`nearestNeighborTSP`: returns the chosen `nearest` zone index and the
final `minEffectiveDistance`.  Matches the source for every zone whose
`priority` is nonzero (for `priority = 0` JavaScript produces an
`Infinity`-valued effective distance and never selects the zone). -/
def findNearest (M : ℕ → ℕ → K) (zones : List (Zone K)) (available : List ℕ)
    (battery payload : K) (route visited : List ℕ) (cur : ℕ) (currentDistance : K) :
    Option ℕ × Option K :=
  available.foldl (nnStep M zones battery payload route visited cur currentDistance)
    (none, none)

/-- The `while (true)` loop of `nearestNeighborTSP`, with fuel.  Each
iteration either stops (no feasible candidate) or appends the chosen
candidate to the route, marks it visited and advances `current` and
`currentDistance`.  Every iteration visits a fresh element of
`availableZones`, so fuel `availableZones.length` never runs out before
the natural exit. -/
def nnLoop (M : ℕ → ℕ → K) (zones : List (Zone K)) (available : List ℕ)
    (battery payload : K) : ℕ → List ℕ → List ℕ → ℕ → K → List ℕ
  | 0, route, _, _, _ => route
  | fuel + 1, route, visited, cur, currentDistance =>
    match (findNearest M zones available battery payload route visited cur currentDistance).1 with
    | none => route
    | some nearest =>
      nnLoop M zones available battery payload fuel (route ++ [nearest]) (nearest :: visited)
        nearest (currentDistance + M cur nearest)

/-- Model of `nearestNeighborTSP(availableZones, drone)`. -/
def nearestNeighborTSP (M : ℕ → ℕ → K) (zones : List (Zone K)) (available : List ℕ)
    (d : Drone K) : List ℕ :=
  nnLoop M zones available d.batteryCapacity d.payloadCapacity available.length [0] [0] 0 0

/-- Sum of the matrix distances along consecutive pairs of a route. -/
def pathSum (M : ℕ → ℕ → K) : List ℕ → K
  | [] => 0
  | [_] => 0
  | a :: b :: t => M a b + pathSum M (b :: t)

/-- Model of `calculateRouteDistance(route)`: base to first entry, the
consecutive pairs, then last entry back to base. -/
def calculateRouteDistance (M : ℕ → ℕ → K) : List ℕ → K
  | [] => 0
  | a :: t => M 0 a + pathSum M (a :: t) + M ((a :: t).getLast (List.cons_ne_nil a t)) 0

/-- Model of `reverseSegment(route, start, end)`: the in-place two-pointer
swap loop reverses the slice `route[start..end]`; with `end ≤ start` the
loop body never runs.  (`twoOptOptimize` only calls it with
`1 ≤ start < end ≤ route.length - 2`.) -/
def reverseSegment (route : List ℕ) (start stop : ℕ) : List ℕ :=
  if stop ≤ start then route
  else route.take start ++ ((route.drop start).take (stop + 1 - start)).reverse ++
    route.drop (stop + 1)

/-- The body of the inner double loop of `twoOptOptimize` at one index
pair `(i, j)`: compare the two changed edges, and on improvement accept
the reversed candidate route only if its full recomputed round-trip
distance is within `maxDistance`.  The boolean is the `improved` flag
contribution. -/
def twoOptStep (M : ℕ → ℕ → K) (maxDistance : K) (route : List ℕ) (i j : ℕ) :
    List ℕ × Bool :=
  let oldDist := M (route.getD (i - 1) 0) (route.getD i 0) +
    M (route.getD j 0) (route.getD (j + 1) 0)
  let newDist := M (route.getD (i - 1) 0) (route.getD j 0) +
    M (route.getD i 0) (route.getD (j + 1) 0)
  if decide (newDist < oldDist) then
    let testRoute := reverseSegment route i j
    if decide (calculateRouteDistance M testRoute ≤ maxDistance) then (testRoute, true)
    else (route, false)
  else (route, false)

/-- The index pairs scanned by the double loop
`for (i = 1; i < n - 2; i++) for (j = i + 1; j < n - 1; j++)`, in
iteration order (`n` = `route.length`, constant across reversals). -/
def twoOptPairs (n : ℕ) : List (ℕ × ℕ) :=
  ((List.range n).map fun i => (List.range n).map fun j => (i, j)).flatten.filter
    fun p => decide (1 ≤ p.1) && decide (p.1 + 2 < n) && decide (p.1 + 1 ≤ p.2) &&
      decide (p.2 + 1 < n)

/-- One full pass of the double loop, threading the current route and the
`improved` flag. -/
def twoOptSweep (M : ℕ → ℕ → K) (maxDistance : K) (route : List ℕ) : List ℕ × Bool :=
  (twoOptPairs route.length).foldl
    (fun acc p =>
      let s := twoOptStep M maxDistance acc.1 p.1 p.2
      (s.1, acc.2 || s.2))
    (route, false)

/-- The `while (improved && iterations < maxIterations)` loop: up to the
given number of passes, stopping early after a pass with no accepted
reversal. -/
def twoOptGo (M : ℕ → ℕ → K) (maxDistance : K) : ℕ → List ℕ → List ℕ
  | 0, route => route
  | n + 1, route =>
    let s := twoOptSweep M maxDistance route
    if s.2 then twoOptGo M maxDistance n s.1 else s.1

/-- Model of `twoOptOptimize(route, maxDistance)`: routes shorter than 4
are returned unchanged, otherwise at most `maxIterations = 5` passes. -/
def twoOptOptimize (M : ℕ → ℕ → K) (maxDistance : K) (route : List ℕ) : List ℕ :=
  if route.length < 4 then route else twoOptGo M maxDistance 5 route

/-- `this.zones[zoneIdx].served = true`. -/
def setServed (zones : List (Zone K)) (idx : ℕ) : List (Zone K) :=
  zones.set idx { zones.getD idx default with served := true }

/-- The body of the marking loop at the end of each `optimize()` fleet
iteration, for one `zoneIdx` of the accepted route. -/
def markStep (acc : List (Zone K) × List Bool × K) (zoneIdx : ℕ) :
    List (Zone K) × List Bool × K :=
  if zoneIdx != 0 && !(acc.2.1.getD zoneIdx false) then
    (setServed acc.1 zoneIdx, acc.2.1.set zoneIdx true,
      acc.2.2 + (acc.1.getD zoneIdx default).demand)
  else acc

/-- The marking loop at the end of each `optimize()` fleet iteration:
walks the accepted route, and for each not-yet-assigned non-base index
marks it assigned and served and accumulates `totalDelivered`. -/
def markRoute (route : List ℕ) (zones : List (Zone K)) (assigned : List Bool) :
    List (Zone K) × List Bool × K :=
  route.foldl markStep (zones, assigned, 0)

/-- The available-zone scan at the top of each fleet iteration:
`for (i = 1; i < zones.length; i++)` keeping unassigned zones whose
demand fits the drone's payload capacity. -/
def availableZonesFor (zones : List (Zone K)) (assigned : List Bool) (d : Drone K) : List ℕ :=
  (List.range zones.length).filter fun i =>
    decide (1 ≤ i) && !(assigned.getD i false) &&
      decide ((zones.getD i default).demand ≤ d.payloadCapacity)

/-- The `for (const drone of this.drones)` loop of `optimize()`: threads
the zone list (served flags) and the `zoneAssigned` array through the
fleet in registration order.  A drone whose available set is empty is
skipped (`continue`) and keeps its previous `route`, `totalDistance` and
`totalDelivered`. -/
def assignRoutes (M : ℕ → ℕ → K) :
    List (Drone K) → List (Zone K) → List Bool →
      List (Drone K) × List (Zone K) × List Bool
  | [], zones, assigned => ([], zones, assigned)
  | d :: rest, zones, assigned =>
    let available := availableZonesFor zones assigned d
    if available.isEmpty then
      let r := assignRoutes M rest zones assigned
      (d :: r.1, r.2)
    else
      let route0 := nearestNeighborTSP M zones available d
      let route := if 1 < route0.length then twoOptOptimize M d.batteryCapacity route0
        else route0
      let m := markRoute route zones assigned
      let d' := { d with
        route := route
        totalDistance := calculateRouteDistance M route
        totalDelivered := m.2.2 }
      let r := assignRoutes M rest m.1 m.2.1
      (d' :: r.1, r.2)

/-- Per-drone block of `getResults()` (the formatted `batteryUsage`
string is modelled numerically; `none` stands for the non-finite value
produced when `batteryCapacity` is 0). -/
structure DroneResult (K : Type) where
  id : ℤ
  route : List (Zone K)
  totalDistance : K
  totalDelivered : K
  batteryUsage : Option K
  routeIndices : List ℕ

/-- The `summary` block of `getResults()`.  `executionTime` (wall-clock)
is not modelled; `avgBatteryUsage` is `none` when JavaScript would
produce `NaN` (empty fleet: `0/0`) or another non-finite value (a zero
`batteryCapacity`). -/
structure Summary (K : Type) where
  totalDistance : K
  zonesServed : ℕ
  totalZones : ℕ
  criticalServed : ℕ
  moderateServed : ℕ
  lowServed : ℕ
  totalCritical : ℕ
  totalModerate : ℕ
  totalLow : ℕ
  avgBatteryUsage : Option K

/-- Model of the object returned by `getResults()`. -/
structure Results (K : Type) where
  drones : List (DroneResult K)
  summary : Summary K

/-- The per-drone `batteryUsage` value
`totalDistance / batteryCapacity * 100` (`none` models the non-finite
number JavaScript produces when `batteryCapacity` is 0). -/
def batteryUsageOf (d : Drone K) : Option K :=
  if d.batteryCapacity = 0 then none else some (d.totalDistance / d.batteryCapacity * 100)

/-- Model of `getResults()`. -/
def getResults (s : State K) : Results K :=
  let avgBatteryUsage : Option K :=
    if s.drones.isEmpty || s.drones.any fun d => decide (d.batteryCapacity = 0) then none
    else some ((s.drones.map fun d => d.totalDistance / d.batteryCapacity * 100).sum /
      (s.drones.length : K))
  { drones := s.drones.map fun d =>
      { id := d.id
        route := d.route.map fun idx => s.zones.getD idx default
        totalDistance := d.totalDistance
        totalDelivered := d.totalDelivered
        batteryUsage := batteryUsageOf d
        routeIndices := d.route }
    summary :=
      { totalDistance := (s.drones.map fun d => d.totalDistance).sum
        zonesServed := (s.zones.filter fun z => z.served && z.id != 0).length
        totalZones := s.zones.length - 1
        criticalServed := (s.zones.filter fun z => z.served && decide (z.priority = 1)).length
        moderateServed := (s.zones.filter fun z => z.served && decide (z.priority = 2)).length
        lowServed := (s.zones.filter fun z => z.served && decide (z.priority = 3)).length
        totalCritical := (s.zones.filter fun z => decide (z.priority = 1) && z.id != 0).length
        totalModerate := (s.zones.filter fun z => decide (z.priority = 2) && z.id != 0).length
        totalLow := (s.zones.filter fun z => decide (z.priority = 3) && z.id != 0).length
        avgBatteryUsage := avgBatteryUsage } }

/-- The error optimize() can actually raise: with a fully empty zone
list, `this.zones[0].served = true` throws a `TypeError` (reading
`undefined`).  No `InsufficientInput` or `ValidationError` condition
exists anywhere in the source. -/
inductive JsError : Type
  | typeError : JsError

/-- Model of `optimize()`: build the distance matrix from the CURRENT
zone order, THEN sort the zones by priority (so the matrix indices refer
to the pre-sort order), reset served flags, run the fleet loop, and
aggregate results.  `performance.now()` timing is not modelled. -/
def optimize (dist : K → K → K → K → K) (s : State K) :
    Except JsError (State K × Results K) :=
  let matrix := buildDistanceMatrix dist s.zones
  let zones1 := sortZonesByPriority s.zones
  if zones1.isEmpty then .error JsError.typeError
  else
    let zmap := zones1.map fun z => { z with served := false }
    let zones2 := zmap.set 0 { zmap.getD 0 default with served := true }
    let assigned0 := (List.replicate zones2.length false).set 0 true
    let r := assignRoutes (mGet matrix) s.drones zones2 assigned0
    let s' := { s with zones := r.2.1, drones := r.1, distanceMatrix := matrix }
    .ok (s', getResults s')

/-- A concrete, kernel-computable stand-in for `calculateDistance` used
by the executable runs: squared Euclidean distance on the coordinate
plane (symmetric with zero diagonal, like the haversine distance). -/
def sqDist (lat1 lng1 lat2 lng2 : ℚ) : ℚ :=
  (lat1 - lat2) * (lat1 - lat2) + (lng1 - lng2) * (lng1 - lng2)

/-- A concrete symmetric matrix function for exercising `twoOptOptimize`. -/
def gapM : ℕ → ℕ → ℚ := fun a b => ((max a b - min a b : ℕ) : ℚ)

/-- Base, one request (priority 1, demand 2), one drone: a minimal
optimizer state for exercising `optimize()`. -/
def exState1 : State ℚ :=
  { zones := [⟨0, 0, 0, 0, 0, false⟩, ⟨1, 1, 2, 0, 3, false⟩]
    drones := [Drone.make 0 100 10]
    distanceMatrix := []
    baseLocation := some (0, 0) }

/-- Only the base present (no request), one drone: scenario C of the
specification. -/
def exStateC4 : State ℚ :=
  { zones := [⟨0, 0, 0, 0, 0, false⟩]
    drones := [Drone.make 0 100 10]
    distanceMatrix := []
    baseLocation := some (0, 0) }

/-- A request with demand `-1` and priority `7`: invalid per the
specification's validation rules. -/
def exZoneBad : Zone ℚ := ⟨0, 7, -1, 0, 0, false⟩

/-- A vehicle with battery range `-3` and payload capacity `0`: invalid
per the specification's validation rules. -/
def exDroneBad : Drone ℚ := Drone.make 5 (-3) 0

/-- Base plus one request and an empty fleet: the empty-fleet
average-battery-usage scenario. -/
def exStateC6 : State ℚ :=
  { zones := [⟨0, 0, 0, 0, 0, false⟩, ⟨1, 1, 5, 0, 1, false⟩]
    drones := []
    distanceMatrix := []
    baseLocation := some (0, 0) }

/-- The base of the two-call scenario: the origin of the equator. -/
def c9zBase : Zone K := ⟨0, 0, 0, 0, 0, false⟩

/-- A low-priority request (priority 3, demand 1) at longitude 1 on the
equator. -/
def c9zLow : Zone K := ⟨1, 3, 1, 0, 1, false⟩

/-- A critical request (priority 1, demand 1) at longitude 10 on the
equator. -/
def c9zCrit : Zone K := ⟨2, 1, 1, 0, 10, false⟩

/-- The base entry with its served flag set (as `optimize()` marks it). -/
def c9zBaseS : Zone K := ⟨0, 0, 0, 0, 0, true⟩

/-- The critical request after being served by the first call. -/
def c9zCritS : Zone K := ⟨2, 1, 1, 0, 10, true⟩

/-- The low-priority request after being served by the second call. -/
def c9zLowS : Zone K := ⟨1, 3, 1, 0, 1, true⟩

/-- The single drone of the two-call scenario: battery range 250 km,
payload capacity 10, fresh constructor fields. -/
def c9drone : Drone K := ⟨0, 250, 10, [], 0, 0⟩

/-- Base at the origin plus a low-priority request at longitude 1 and a
critical request at longitude 10 (all on the equator), with one drone
(battery 250, payload 10).  The first `optimize()` call builds the
matrix in insertion order and then sorts the critical request to
position 1, so the nearest-neighbor scan of that call reads the wrong
matrix rows; a second call rebuilds the matrix in sorted order and picks
a different zone. -/
def c9State : State K :=
  { zones := [c9zBase, c9zLow, c9zCrit]
    drones := [c9drone]
    distanceMatrix := []
    baseLocation := some (0, 0) }

/-- The state `optimize dist c9State` leaves behind: the critical request
served via zone index 1 of the sorted order, the drone routed `[0, 1]`,
and the distance matrix still indexed by the pre-sort insertion order. -/
def c9Mid (dist : K → K → K → K → K) : State K :=
  { zones := [c9zBaseS, c9zCritS, c9zLow]
    drones := [⟨0, 250, 10, [0, 1],
      calculateRouteDistance (mGet (buildDistanceMatrix dist [c9zBase, c9zLow, c9zCrit]))
        [0, 1], 0 + 1⟩]
    distanceMatrix := buildDistanceMatrix dist [c9zBase, c9zLow, c9zCrit]
    baseLocation := some (0, 0) }

end DDO

namespace DDO

variable {K : Type} [LinearOrderedField K] (M : ℕ → ℕ → K)

theorem pathSum_cons_cons (a b : ℕ) (t : List ℕ) :
    pathSum M (a :: b :: t) = M a b + pathSum M (b :: t) := rfl

theorem pathSum_append' : ∀ (l1 l2 : List ℕ) (h1 : l1 ≠ []) (h2 : l2 ≠ []),
    pathSum M (l1 ++ l2) = pathSum M l1 + M (l1.getLast h1) (l2.head h2) + pathSum M l2
  | [], _, h1, _ => absurd rfl h1
  | [a], c :: t2, _, _ => by
    simp [pathSum_cons_cons, pathSum]
  | a :: b :: t, l2, _, h2 => by
    have ih := pathSum_append' (b :: t) l2 (by simp) h2
    calc pathSum M ((a :: b :: t) ++ l2)
        = M a b + pathSum M ((b :: t) ++ l2) := rfl
      _ = M a b + (pathSum M (b :: t) + M ((b :: t).getLast (by simp)) (l2.head h2) +
            pathSum M l2) := by rw [ih]
      _ = pathSum M (a :: b :: t) + M ((a :: b :: t).getLast (by simp)) (l2.head h2) +
            pathSum M l2 := by
          rw [pathSum_cons_cons, List.getLast_cons (show (b :: t) ≠ [] by simp)]
          ring

theorem pathSum_reverse (hsym : ∀ a b, M a b = M b a) :
    ∀ l : List ℕ, pathSum M l.reverse = pathSum M l
  | [] => rfl
  | [a] => rfl
  | a :: b :: t => by
    have ih := pathSum_reverse hsym (b :: t)
    have hrev : (a :: b :: t).reverse = (b :: t).reverse ++ [a] := by simp
    rw [hrev, pathSum_append' M ((b :: t).reverse) [a] (by simp) (by simp), ih,
      List.getLast_reverse, pathSum_cons_cons]
    simp [pathSum, hsym b a]
    ring

theorem calcRD_eq_pathSum (l : List ℕ) (h : l ≠ []) :
    calculateRouteDistance M l = pathSum M (0 :: l ++ [0]) := by
  match l with
  | a :: t =>
    have h2 := pathSum_append' M (a :: t) [0] (by simp) (by simp)
    calc calculateRouteDistance M (a :: t)
        = M 0 a + pathSum M (a :: t) + M ((a :: t).getLast (by simp)) 0 := rfl
      _ = M 0 a + pathSum M ((a :: t) ++ [0]) := by
          rw [h2, show pathSum M [0] = 0 from rfl, show ([0] : List ℕ).head (by simp) = 0
            from rfl]
          ring
      _ = pathSum M (0 :: (a :: t) ++ [0]) := by
          simp only [List.cons_append, pathSum_cons_cons]

theorem pathSum_mid (X B Y : List ℕ) (hX : X ≠ []) (hB : B ≠ []) (hY : Y ≠ []) :
    pathSum M (X ++ B ++ Y) = pathSum M X + M (X.getLast hX) (B.head hB) + pathSum M B
      + M (B.getLast hB) (Y.head hY) + pathSum M Y := by
  rw [List.append_assoc,
    pathSum_append' M X (B ++ Y) hX (by simp [hB]),
    pathSum_append' M B Y hB hY]
  have hhead : (B ++ Y).head (by simp [hB]) = B.head hB := by
    rw [List.head_append]
    simp [hB]
  rw [hhead]
  ring

theorem route_decomp (route : List ℕ) (i j : ℕ) (hij : i ≤ j) :
    route = route.take i ++ ((route.drop i).take (j + 1 - i) ++ route.drop (j + 1)) := by
  conv_lhs => rw [← List.take_append_drop i route]
  congr 1
  conv_lhs => rw [← List.take_append_drop (j + 1 - i) (route.drop i)]
  congr 1
  rw [List.drop_drop]
  congr 1
  omega

theorem reverseSegment_perm (route : List ℕ) (i j : ℕ) :
    List.Perm (reverseSegment route i j) route := by
  unfold reverseSegment
  split
  · exact List.Perm.refl _
  · rename_i h
    conv_rhs => rw [route_decomp route i j (by omega)]
    rw [List.append_assoc]
    exact ((List.reverse_perm _).append_right _).append_left _

theorem reverseSegment_length (route : List ℕ) (i j : ℕ) :
    (reverseSegment route i j).length = route.length :=
  (reverseSegment_perm route i j).length_eq

/-- Reversing the inner segment `[i..j]` changes the round-trip distance
by exactly the two-edge delta computed in `twoOptOptimize` (for a
symmetric matrix, the reversed inner edges contribute the same sum). -/
theorem calcRD_reverseSegment (hsym : ∀ a b : ℕ, M a b = M b a) (route : List ℕ) {i j : ℕ}
    (hi : 1 ≤ i) (hij : i < j) (hj : j + 1 < route.length) :
    calculateRouteDistance M (reverseSegment route i j) =
      calculateRouteDistance M route +
        (M (route.getD (i - 1) 0) (route.getD j 0) +
          M (route.getD i 0) (route.getD (j + 1) 0)) -
        (M (route.getD (i - 1) 0) (route.getD i 0) +
          M (route.getD j 0) (route.getD (j + 1) 0)) := by
  have hAlen : (route.take i).length = i := by
    simp [List.length_take]
    omega
  have hAne : route.take i ≠ [] := by
    intro h
    rw [h] at hAlen
    simp at hAlen
    omega
  have hBlen : ((route.drop i).take (j + 1 - i)).length = j + 1 - i := by
    simp [List.length_take, List.length_drop]
    omega
  have hBne : (route.drop i).take (j + 1 - i) ≠ [] := by
    intro h
    rw [h] at hBlen
    simp at hBlen
    omega
  have hCne : route.drop (j + 1) ≠ [] := by
    simp [List.drop_eq_nil_iff]
    omega
  have hBrne : ((route.drop i).take (j + 1 - i)).reverse ≠ [] := by
    simpa using hBne
  have hRne : route ≠ [] := by
    intro h
    rw [h] at hj
    simp at hj
  have hrevne : reverseSegment route i j ≠ [] := by
    intro h
    have := reverseSegment_length route i j
    rw [h] at this
    simp at this
    omega
  -- the four boundary stops, expressed through `getD`
  have hAlast : ∀ h, (route.take i).getLast h = route.getD (i - 1) 0 := by
    intro h
    rw [List.getLast_take, List.getElem?_eq_getElem (show i - 1 < route.length by omega),
      List.getD_eq_getElem route 0 (show i - 1 < route.length by omega)]
    rfl
  have hBhead : ∀ h, ((route.drop i).take (j + 1 - i)).head h = route.getD i 0 := by
    intro h
    rw [List.head_take, List.head_drop,
      List.getD_eq_getElem route 0 (show i < route.length by omega)]
  have hBlast : ∀ h, ((route.drop i).take (j + 1 - i)).getLast h = route.getD j 0 := by
    intro h
    rw [List.getLast_take]
    have hdj : j - i < (route.drop i).length := by
      simp [List.length_drop]
      omega
    rw [show j + 1 - i - 1 = j - i by omega,
      List.getElem?_eq_getElem hdj]
    simp only [Option.getD_some]
    rw [List.getElem_drop, List.getD_eq_getElem route 0 (show j < route.length by omega)]
    congr 1
    omega
  have hChead : ∀ h, (route.drop (j + 1)).head h = route.getD (j + 1) 0 := by
    intro h
    rw [List.head_drop, List.getD_eq_getElem route 0 hj]
  -- decompose both round trips with `pathSum_mid`
  have hEold : calculateRouteDistance M route =
      pathSum M ((0 :: route.take i) ++ (route.drop i).take (j + 1 - i) ++
        (route.drop (j + 1) ++ [0])) := by
    rw [calcRD_eq_pathSum M route hRne]
    congr 1
    conv_lhs => rw [route_decomp route i j (le_of_lt hij)]
    simp [List.append_assoc]
  have hEnew : calculateRouteDistance M (reverseSegment route i j) =
      pathSum M ((0 :: route.take i) ++ ((route.drop i).take (j + 1 - i)).reverse ++
        (route.drop (j + 1) ++ [0])) := by
    rw [calcRD_eq_pathSum M _ hrevne]
    congr 1
    unfold reverseSegment
    rw [if_neg (by omega)]
    simp [List.append_assoc]
  rw [hEold, hEnew,
    pathSum_mid M (0 :: route.take i) ((route.drop i).take (j + 1 - i))
      (route.drop (j + 1) ++ [0]) (by simp) hBne (by simp),
    pathSum_mid M (0 :: route.take i) ((route.drop i).take (j + 1 - i)).reverse
      (route.drop (j + 1) ++ [0]) (by simp) hBrne (by simp)]
  have hYhead : ∀ h, (route.drop (j + 1) ++ [0]).head h = route.getD (j + 1) 0 := by
    intro h
    rw [List.head_append]
    simp only [List.isEmpty_eq_true]
    rw [dif_neg hCne]
    exact hChead _
  simp only [List.getLast_cons hAne, List.head_reverse, List.getLast_reverse,
    pathSum_reverse M hsym, hAlast, hBhead, hBlast, hYhead]
  ring

theorem twoOptStep_perm (maxDistance : K) (route : List ℕ) (i j : ℕ) :
    List.Perm (twoOptStep M maxDistance route i j).1 route := by
  unfold twoOptStep
  dsimp only
  split
  · split
    · exact reverseSegment_perm route i j
    · exact List.Perm.refl _
  · exact List.Perm.refl _

theorem twoOptStep_le_max (maxDistance : K) (route : List ℕ) (i j : ℕ) :
    calculateRouteDistance M (twoOptStep M maxDistance route i j).1 ≤
      max (calculateRouteDistance M route) maxDistance := by
  unfold twoOptStep
  dsimp only
  split
  · split
    · rename_i hacc
      rw [decide_eq_true_eq] at hacc
      exact le_max_of_le_right hacc
    · exact le_max_left _ _
  · exact le_max_left _ _

theorem twoOptStep_le_symm (hsym : ∀ a b : ℕ, M a b = M b a) (maxDistance : K)
    (route : List ℕ) {i j : ℕ} (hi : 1 ≤ i) (hij : i < j) (hj : j + 1 < route.length) :
    calculateRouteDistance M (twoOptStep M maxDistance route i j).1 ≤
      calculateRouteDistance M route := by
  unfold twoOptStep
  dsimp only
  split
  · split
    · rename_i himp hacc
      rw [decide_eq_true_eq] at himp
      have hid := calcRD_reverseSegment M hsym route hi hij hj
      rw [hid]
      linarith
    · exact le_refl _
  · exact le_refl _

theorem twoOptPairs_mem {n : ℕ} {p : ℕ × ℕ} (hp : p ∈ twoOptPairs n) :
    1 ≤ p.1 ∧ p.1 + 2 < n ∧ p.1 + 1 ≤ p.2 ∧ p.2 + 1 < n := by
  unfold twoOptPairs at hp
  rw [List.mem_filter] at hp
  have := hp.2
  simp only [Bool.and_eq_true, decide_eq_true_eq] at this
  exact ⟨this.1.1.1, this.1.1.2, this.1.2, this.2⟩

theorem sweep_foldl_basic (maxDistance : K) (route : List ℕ) :
    ∀ (ps : List (ℕ × ℕ)) (acc : List ℕ × Bool),
      List.Perm acc.1 route →
      calculateRouteDistance M acc.1 ≤ max (calculateRouteDistance M route) maxDistance →
      List.Perm (ps.foldl
        (fun acc p =>
          let s := twoOptStep M maxDistance acc.1 p.1 p.2
          (s.1, acc.2 || s.2)) acc).1 route ∧
      calculateRouteDistance M (ps.foldl
        (fun acc p =>
          let s := twoOptStep M maxDistance acc.1 p.1 p.2
          (s.1, acc.2 || s.2)) acc).1 ≤
        max (calculateRouteDistance M route) maxDistance
  | [], _, hperm, hle => ⟨hperm, hle⟩
  | p :: ps, acc, hperm, hle => by
    refine sweep_foldl_basic maxDistance route ps _ ?_ ?_
    · exact (twoOptStep_perm M maxDistance acc.1 p.1 p.2).trans hperm
    · calc calculateRouteDistance M (twoOptStep M maxDistance acc.1 p.1 p.2).1
          ≤ max (calculateRouteDistance M acc.1) maxDistance :=
            twoOptStep_le_max M maxDistance acc.1 p.1 p.2
        _ ≤ max (calculateRouteDistance M route) maxDistance :=
            max_le hle (le_max_right _ _)

theorem sweep_foldl_symm (hsym : ∀ a b : ℕ, M a b = M b a) (maxDistance : K)
    (route : List ℕ) :
    ∀ (ps : List (ℕ × ℕ)) (acc : List ℕ × Bool),
      (∀ p ∈ ps, 1 ≤ p.1 ∧ p.1 + 1 ≤ p.2 ∧ p.2 + 1 < route.length) →
      List.Perm acc.1 route →
      calculateRouteDistance M acc.1 ≤ calculateRouteDistance M route →
      List.Perm (ps.foldl
        (fun acc p =>
          let s := twoOptStep M maxDistance acc.1 p.1 p.2
          (s.1, acc.2 || s.2)) acc).1 route ∧
      calculateRouteDistance M (ps.foldl
        (fun acc p =>
          let s := twoOptStep M maxDistance acc.1 p.1 p.2
          (s.1, acc.2 || s.2)) acc).1 ≤ calculateRouteDistance M route
  | [], _, _, hperm, hle => ⟨hperm, hle⟩
  | p :: ps, acc, hps, hperm, hle => by
    have hmem := hps p (List.mem_cons_self p ps)
    have hlen : acc.1.length = route.length := hperm.length_eq
    refine sweep_foldl_symm hsym maxDistance route ps _
      (fun q hq => hps q (List.mem_cons_of_mem p hq)) ?_ ?_
    · exact (twoOptStep_perm M maxDistance acc.1 p.1 p.2).trans hperm
    · calc calculateRouteDistance M (twoOptStep M maxDistance acc.1 p.1 p.2).1
          ≤ calculateRouteDistance M acc.1 :=
            twoOptStep_le_symm M hsym maxDistance acc.1 hmem.1
              (by omega) (by omega)
        _ ≤ calculateRouteDistance M route := hle

theorem twoOptSweep_perm (maxDistance : K) (route : List ℕ) :
    List.Perm (twoOptSweep M maxDistance route).1 route :=
  (sweep_foldl_basic M maxDistance route (twoOptPairs route.length) (route, false)
    (List.Perm.refl _) (le_max_left _ _)).1

theorem twoOptSweep_le_max (maxDistance : K) (route : List ℕ) :
    calculateRouteDistance M (twoOptSweep M maxDistance route).1 ≤
      max (calculateRouteDistance M route) maxDistance :=
  (sweep_foldl_basic M maxDistance route (twoOptPairs route.length) (route, false)
    (List.Perm.refl _) (le_max_left _ _)).2

theorem twoOptSweep_le_symm (hsym : ∀ a b : ℕ, M a b = M b a) (maxDistance : K)
    (route : List ℕ) :
    calculateRouteDistance M (twoOptSweep M maxDistance route).1 ≤
      calculateRouteDistance M route :=
  (sweep_foldl_symm M hsym maxDistance route (twoOptPairs route.length) (route, false)
    (fun p hp => by
      have := twoOptPairs_mem hp
      exact ⟨this.1, this.2.2.1, this.2.2.2⟩)
    (List.Perm.refl _) (le_refl _)).2

theorem twoOptGo_perm (maxDistance : K) :
    ∀ (fuel : ℕ) (route : List ℕ), List.Perm (twoOptGo M maxDistance fuel route) route
  | 0, _ => List.Perm.refl _
  | n + 1, route => by
    unfold twoOptGo
    dsimp only
    split
    · exact (twoOptGo_perm maxDistance n _).trans (twoOptSweep_perm M maxDistance route)
    · exact twoOptSweep_perm M maxDistance route

theorem twoOptGo_le_max (maxDistance : K) :
    ∀ (fuel : ℕ) (route : List ℕ),
      calculateRouteDistance M (twoOptGo M maxDistance fuel route) ≤
        max (calculateRouteDistance M route) maxDistance
  | 0, route => le_max_left _ _
  | n + 1, route => by
    unfold twoOptGo
    dsimp only
    split
    · calc calculateRouteDistance M (twoOptGo M maxDistance n (twoOptSweep M maxDistance route).1)
          ≤ max (calculateRouteDistance M (twoOptSweep M maxDistance route).1) maxDistance :=
            twoOptGo_le_max maxDistance n _
        _ ≤ max (calculateRouteDistance M route) maxDistance :=
            max_le (le_trans (twoOptSweep_le_max M maxDistance route) (le_refl _))
              (le_max_right _ _)
    · exact twoOptSweep_le_max M maxDistance route

theorem twoOptGo_le_symm (hsym : ∀ a b : ℕ, M a b = M b a) (maxDistance : K) :
    ∀ (fuel : ℕ) (route : List ℕ),
      calculateRouteDistance M (twoOptGo M maxDistance fuel route) ≤
        calculateRouteDistance M route
  | 0, _ => le_refl _
  | n + 1, route => by
    unfold twoOptGo
    dsimp only
    split
    · exact le_trans (twoOptGo_le_symm hsym maxDistance n _)
        (twoOptSweep_le_symm M hsym maxDistance route)
    · exact twoOptSweep_le_symm M hsym maxDistance route

theorem twoOptOptimize_perm (maxDistance : K) (route : List ℕ) :
    List.Perm (twoOptOptimize M maxDistance route) route := by
  unfold twoOptOptimize
  split
  · exact List.Perm.refl _
  · exact twoOptGo_perm M maxDistance 5 route

theorem twoOptOptimize_le_max (maxDistance : K) (route : List ℕ) :
    calculateRouteDistance M (twoOptOptimize M maxDistance route) ≤
      max (calculateRouteDistance M route) maxDistance := by
  unfold twoOptOptimize
  split
  · exact le_max_left _ _
  · exact twoOptGo_le_max M maxDistance 5 route

theorem twoOptOptimize_le_symm (hsym : ∀ a b : ℕ, M a b = M b a) (maxDistance : K)
    (route : List ℕ) :
    calculateRouteDistance M (twoOptOptimize M maxDistance route) ≤
      calculateRouteDistance M route := by
  unfold twoOptOptimize
  split
  · exact le_refl _
  · exact twoOptGo_le_symm M hsym maxDistance 5 route

theorem currentLoad_append (zones : List (Zone K)) (route : List ℕ) {z : ℕ} (hz : z ≠ 0) :
    currentLoad zones (route ++ [z]) =
      currentLoad zones route + (zones.getD z default).demand := by
  unfold currentLoad
  rw [List.filter_append]
  simp [hz]

theorem currentLoad_perm (zones : List (Zone K)) {r1 r2 : List ℕ}
    (h : List.Perm r1 r2) : currentLoad zones r1 = currentLoad zones r2 :=
  ((h.filter _).map _).sum_eq

/-- What holds of any `nearest` candidate returned by the scan: it is
unvisited, its battery check and its payload check both passed, and it
comes from the scanned list. -/
def NNChoiceOK (M : ℕ → ℕ → K) (zones : List (Zone K)) (battery payload : K)
    (route visited : List ℕ) (cur : ℕ) (currentDistance : K) (w : ℕ) : Prop :=
  visited.contains w = false ∧
  currentDistance + M cur w + M w 0 ≤ battery ∧
  currentLoad zones route + (zones.getD w default).demand ≤ payload

theorem findNearest_aux (M : ℕ → ℕ → K) (zones : List (Zone K)) (avail0 : List ℕ)
    (battery payload : K) (route visited : List ℕ) (cur : ℕ) (cd : K) :
    ∀ (l : List ℕ) (acc : Option ℕ × Option K),
      (∀ w, acc.1 = some w →
        NNChoiceOK M zones battery payload route visited cur cd w ∧ w ∈ avail0) →
      (∀ x ∈ l, x ∈ avail0) →
      ∀ z, (l.foldl (nnStep M zones battery payload route visited cur cd) acc).1 = some z →
        NNChoiceOK M zones battery payload route visited cur cd z ∧ z ∈ avail0
  | [], _, hacc, _, z, hz => hacc z hz
  | x :: l, acc, hacc, hl, z, hz => by
    refine findNearest_aux M zones avail0 battery payload route visited cur cd l _ ?_
      (fun y hy => hl y (List.mem_cons_of_mem x hy)) z hz
    intro w hw
    unfold nnStep at hw
    by_cases hv : visited.contains x
    · rw [if_pos hv] at hw
      exact hacc w hw
    · rw [if_neg hv] at hw
      dsimp only at hw
      split at hw
      · split at hw
        · rename_i hcond hload
          have hwx : x = w := by
            dsimp only at hw
            exact Option.some.inj hw
          subst hwx
          rw [Bool.and_eq_true, decide_eq_true_eq] at hcond
          rw [decide_eq_true_eq] at hload
          refine ⟨⟨by simpa using hv, hcond.1, hload⟩, hl _ (List.mem_cons_self _ _)⟩
        · exact hacc w hw
      · exact hacc w hw

theorem findNearest_sound (M : ℕ → ℕ → K) (zones : List (Zone K)) (available : List ℕ)
    (battery payload : K) (route visited : List ℕ) (cur : ℕ) (cd : K) {z : ℕ}
    (hz : (findNearest M zones available battery payload route visited cur cd).1 = some z) :
    NNChoiceOK M zones battery payload route visited cur cd z ∧ z ∈ available := by
  unfold findNearest at hz
  exact findNearest_aux M zones available battery payload route visited cur cd available
    (none, none) (fun w hw => by simp at hw) (fun x hx => hx) z hz

/-- Loop invariant of `nearestNeighborTSP`: the route starts at the base,
ends at `current`, has `currentDistance` as its internal path length, the
visited set mirrors it, it repeats no index, it draws from
`availableZones`, and (past the bare base) its load fits the payload and
its path-plus-return fits the battery. -/
def NNInv (M : ℕ → ℕ → K) (zones : List (Zone K)) (available : List ℕ)
    (battery payload : K) (route visited : List ℕ) (cur : ℕ) (cd : K) : Prop :=
  route.head? = some 0 ∧
  route.getLast? = some cur ∧
  cd = pathSum M route ∧
  visited = route.reverse ∧
  route.Nodup ∧
  (∀ z ∈ route, z = 0 ∨ z ∈ available) ∧
  (0 : ℕ) ∈ visited ∧
  (route = [0] ∨ (currentLoad zones route ≤ payload ∧ cd + M cur 0 ≤ battery))

/-- What survives of the invariant on the route a finished
`nearestNeighborTSP` call returns. -/
def NNRouteOK (M : ℕ → ℕ → K) (zones : List (Zone K)) (available : List ℕ)
    (battery payload : K) (route : List ℕ) : Prop :=
  route.head? = some 0 ∧
  route.Nodup ∧
  (∀ z ∈ route, z = 0 ∨ z ∈ available) ∧
  (route = [0] ∨ (currentLoad zones route ≤ payload ∧
    ∃ cur, route.getLast? = some cur ∧ pathSum M route + M cur 0 ≤ battery))

theorem nnLoop_ok (M : ℕ → ℕ → K) (zones : List (Zone K)) (available : List ℕ)
    (battery payload : K) :
    ∀ (fuel : ℕ) (route visited : List ℕ) (cur : ℕ) (cd : K),
      NNInv M zones available battery payload route visited cur cd →
      NNRouteOK M zones available battery payload
        (nnLoop M zones available battery payload fuel route visited cur cd)
  | 0, route, visited, cur, cd, hinv => by
    rw [show nnLoop M zones available battery payload 0 route visited cur cd = route
      from rfl]
    exact ⟨hinv.1, hinv.2.2.2.2.1, hinv.2.2.2.2.2.1, by
      rcases hinv.2.2.2.2.2.2.2 with h | h
      · exact Or.inl h
      · exact Or.inr ⟨h.1, cur, hinv.2.1, by rw [← hinv.2.2.1]; exact h.2⟩⟩
  | fuel + 1, route, visited, cur, cd, hinv => by
    obtain ⟨hhead, hlast, hcd, hvis, hnd, hmem, h0vis, htail⟩ := hinv
    cases hfn : (findNearest M zones available battery payload route visited cur cd).1 with
    | none =>
      rw [show nnLoop M zones available battery payload (fuel + 1) route visited cur cd
        = route by unfold nnLoop; rw [hfn]]
      exact ⟨hhead, hnd, hmem, by
        rcases htail with h | h
        · exact Or.inl h
        · exact Or.inr ⟨h.1, cur, hlast, by rw [← hcd]; exact h.2⟩⟩
    | some z =>
      rw [show nnLoop M zones available battery payload (fuel + 1) route visited cur cd
        = nnLoop M zones available battery payload fuel (route ++ [z]) (z :: visited) z
          (cd + M cur z) by conv_lhs => rw [nnLoop, hfn]]
      obtain ⟨⟨hzvis, hzbat, hzload⟩, hzav⟩ :=
        findNearest_sound M zones available battery payload route visited cur cd hfn
      have hzmem : z ∉ visited := by simpa using hzvis
      have hz0 : z ≠ 0 := fun h => hzmem (h ▸ h0vis)
      have hzroute : z ∉ route := fun h => hzmem (by rw [hvis]; simpa using h)
      have hrne : route ≠ [] := by
        intro h
        rw [h] at hhead
        simp at hhead
      have hgl : route.getLast hrne = cur := by
        rw [List.getLast?_eq_getLast route hrne] at hlast
        injection hlast
      apply nnLoop_ok M zones available battery payload fuel
      refine ⟨?_, ?_, ?_, ?_, ?_, ?_, ?_, ?_⟩
      · rw [List.head?_append, hhead]
        rfl
      · exact List.getLast?_concat route
      · rw [pathSum_append' M route [z] hrne (by simp), hgl]
        simp [pathSum, hcd]
      · rw [hvis]
        simp
      · rw [List.nodup_append]
        exact ⟨hnd, by simp, by simpa using hzroute⟩
      · intro w hw
        rcases List.mem_append.1 hw with h | h
        · exact hmem w h
        · simp at h
          exact Or.inr (h ▸ hzav)
      · exact List.mem_cons_of_mem z h0vis
      · refine Or.inr ⟨?_, ?_⟩
        · rw [currentLoad_append zones route hz0]
          exact hzload
        · exact hzbat

theorem nearestNeighborTSP_ok (M : ℕ → ℕ → K) (zones : List (Zone K))
    (available : List ℕ) (d : Drone K) :
    NNRouteOK M zones available d.batteryCapacity d.payloadCapacity
      (nearestNeighborTSP M zones available d) := by
  apply nnLoop_ok
  refine ⟨rfl, rfl, rfl, rfl, by simp, ?_, by simp, Or.inl rfl⟩
  intro z hz
  simp at hz
  exact Or.inl hz

theorem setServed_length (zs : List (Zone K)) (i : ℕ) :
    (setServed zs i).length = zs.length :=
  List.length_set zs i _

theorem setServed_getD_demand (zs : List (Zone K)) (i k : ℕ) :
    ((setServed zs i).getD k default).demand = (zs.getD k default).demand := by
  unfold setServed
  simp only [List.getD_eq_getElem?_getD, List.getElem?_set]
  split
  · rename_i hik
    subst hik
    split
    · rename_i hlt
      rw [List.getElem?_eq_getElem hlt]
      rfl
    · rename_i hge
      rw [List.getElem?_eq_none (show zs.length ≤ i by omega)]
  · rfl

theorem getD_set_true_self (a : List Bool) {i : ℕ} (h : i < a.length) :
    (a.set i true).getD i false = true := by
  rw [List.getD_eq_getElem?_getD, List.getElem?_set]
  simp [h]

theorem getD_set_ne (a : List Bool) (b : Bool) {i k : ℕ} (h : i ≠ k) :
    (a.set i b).getD k false = a.getD k false := by
  rw [List.getD_eq_getElem?_getD, List.getElem?_set, if_neg h,
    ← List.getD_eq_getElem?_getD]

theorem getD_set_mono (a : List Bool) {i k : ℕ} (h : a.getD k false = true) :
    (a.set i true).getD k false = true := by
  by_cases hik : i = k
  · subst hik
    have hlt : i < a.length := by
      by_contra hge
      rw [List.getD_eq_getElem?_getD, List.getElem?_eq_none (by omega)] at h
      simp at h
    exact getD_set_true_self a hlt
  · rw [getD_set_ne a true hik]
    exact h

theorem markRoute_fold_facts :
    ∀ (r : List ℕ) (acc : List (Zone K) × List Bool × K),
      (r.foldl markStep acc).1.length = acc.1.length ∧
      (r.foldl markStep acc).2.1.length = acc.2.1.length ∧
      (∀ k, ((r.foldl markStep acc).1.getD k default).demand =
        (acc.1.getD k default).demand) ∧
      (∀ k, acc.2.1.getD k false = true →
        (r.foldl markStep acc).2.1.getD k false = true) ∧
      (∀ z ∈ r, z ≠ 0 → z < acc.2.1.length →
        (r.foldl markStep acc).2.1.getD z false = true)
  | [], acc => by
    refine ⟨rfl, rfl, fun k => rfl, fun k h => h, ?_⟩
    intro z hz
    simp at hz
  | x :: r, acc => by
    have ih := markRoute_fold_facts r (markStep acc x)
    have hstep : (markStep acc x).1.length = acc.1.length ∧
        (markStep acc x).2.1.length = acc.2.1.length ∧
        (∀ k, ((markStep acc x).1.getD k default).demand =
          (acc.1.getD k default).demand) ∧
        (∀ k, acc.2.1.getD k false = true →
          (markStep acc x).2.1.getD k false = true) := by
      unfold markStep
      split
      · exact ⟨setServed_length _ _, List.length_set _ _ _,
          fun k => setServed_getD_demand _ _ _, fun k h => getD_set_mono _ h⟩
      · exact ⟨rfl, rfl, fun k => rfl, fun k h => h⟩
    have hxmark : x ≠ 0 → x < acc.2.1.length →
        (markStep acc x).2.1.getD x false = true := by
      intro hx0 hxlt
      unfold markStep
      split
      · exact getD_set_true_self _ (by rw [← hstep.2.1] at hxlt ⊢; exact hxlt)
      · rename_i hcond
        rw [Bool.and_eq_true] at hcond
        push_neg at hcond
        rcases Decidable.em ((x != 0) = true) with h1 | h1
        · have h2 := hcond h1
          cases hb : acc.2.1.getD x false with
          | false => exact absurd (by rw [hb]; rfl) h2
          | true => rfl
        · simp [bne_iff_ne] at h1
          exact absurd h1 hx0
    refine ⟨by rw [List.foldl_cons, ih.1, hstep.1],
      by rw [List.foldl_cons, ih.2.1, hstep.2.1],
      fun k => by rw [List.foldl_cons, ih.2.2.1 k, hstep.2.2.1 k],
      fun k h => by
        rw [List.foldl_cons]
        exact ih.2.2.2.1 k (hstep.2.2.2 k h), ?_⟩
    intro z hz hz0 hzlt
    rw [List.foldl_cons]
    rcases List.mem_cons.1 hz with rfl | hzr
    · exact ih.2.2.2.1 z (hxmark hz0 hzlt)
    · exact ih.2.2.2.2 z hzr hz0 (by rw [hstep.2.1]; exact hzlt)

theorem markRoute_zones_length (route : List ℕ) (zs : List (Zone K)) (a : List Bool) :
    (markRoute route zs a).1.length = zs.length :=
  (markRoute_fold_facts route (zs, a, 0)).1

theorem markRoute_assigned_length (route : List ℕ) (zs : List (Zone K)) (a : List Bool) :
    (markRoute route zs a).2.1.length = a.length :=
  (markRoute_fold_facts route (zs, a, 0)).2.1

theorem markRoute_demand (route : List ℕ) (zs : List (Zone K)) (a : List Bool) (k : ℕ) :
    (((markRoute route zs a).1).getD k default).demand = (zs.getD k default).demand :=
  (markRoute_fold_facts route (zs, a, 0)).2.2.1 k

theorem markRoute_assigned_mono (route : List ℕ) (zs : List (Zone K)) (a : List Bool)
    {k : ℕ} (h : a.getD k false = true) :
    (markRoute route zs a).2.1.getD k false = true :=
  (markRoute_fold_facts route (zs, a, 0)).2.2.2.1 k h

theorem markRoute_assigned_covers (route : List ℕ) (zs : List (Zone K)) (a : List Bool)
    {z : ℕ} (hz : z ∈ route) (hz0 : z ≠ 0) (hlt : z < a.length) :
    (markRoute route zs a).2.1.getD z false = true :=
  (markRoute_fold_facts route (zs, a, 0)).2.2.2.2 z hz hz0 hlt

theorem availableZonesFor_mem {zs : List (Zone K)} {a : List Bool} {d : Drone K} {z : ℕ}
    (hz : z ∈ availableZonesFor zs a d) :
    1 ≤ z ∧ z < zs.length ∧ a.getD z false = false ∧
      (zs.getD z default).demand ≤ d.payloadCapacity := by
  unfold availableZonesFor at hz
  rw [List.mem_filter, List.mem_range] at hz
  obtain ⟨hlt, hcond⟩ := hz
  simp only [Bool.and_eq_true, decide_eq_true_eq, Bool.not_eq_true'] at hcond
  exact ⟨hcond.1.1, hlt, hcond.1.2, hcond.2⟩

theorem currentLoad_congr {zs1 zs2 : List (Zone K)}
    (h : ∀ k, (zs1.getD k default).demand = (zs2.getD k default).demand) (r : List ℕ) :
    currentLoad zs1 r = currentLoad zs2 r := by
  unfold currentLoad
  congr 1
  exact List.map_eq_map_iff.mpr fun a _ => h a

theorem currentLoad_nil (zs : List (Zone K)) : currentLoad zs [] = 0 := rfl

theorem currentLoad_base (zs : List (Zone K)) : currentLoad zs [0] = 0 := rfl

/-- The zone list threaded through the fleet loop keeps its length and
every entry's demand (only `served` flags are flipped). -/
theorem assignRoutes_zones_facts (M : ℕ → ℕ → K) :
    ∀ (ds : List (Drone K)) (zs : List (Zone K)) (a : List Bool),
      (assignRoutes M ds zs a).2.1.length = zs.length ∧
      ∀ k, (((assignRoutes M ds zs a).2.1).getD k default).demand =
        (zs.getD k default).demand
  | [], _, _ => ⟨rfl, fun _ => rfl⟩
  | d :: rest, zs, a => by
    unfold assignRoutes
    dsimp only
    split
    · exact assignRoutes_zones_facts M rest zs a
    · have ih := assignRoutes_zones_facts M rest
        (markRoute (if 1 < (nearestNeighborTSP M zs (availableZonesFor zs a d) d).length
          then twoOptOptimize M d.batteryCapacity
            (nearestNeighborTSP M zs (availableZonesFor zs a d) d)
          else nearestNeighborTSP M zs (availableZonesFor zs a d) d) zs a).1
        (markRoute (if 1 < (nearestNeighborTSP M zs (availableZonesFor zs a d) d).length
          then twoOptOptimize M d.batteryCapacity
            (nearestNeighborTSP M zs (availableZonesFor zs a d) d)
          else nearestNeighborTSP M zs (availableZonesFor zs a d) d) zs a).2.1
      refine ⟨?_, ?_⟩
      · rw [ih.1, markRoute_zones_length]
      · intro k
        rw [ih.2 k, markRoute_demand]

/-- A route returned by `nearestNeighborTSP` keeps its round trip within
the battery budget, given the zero diagonal of the built matrix. -/
theorem NNRouteOK_calcRD_le {M : ℕ → ℕ → K} {zs : List (Zone K)} {avail : List ℕ}
    {battery payload : K} {r : List ℕ} (hM00 : M 0 0 = 0) (hbat : 0 ≤ battery)
    (h : NNRouteOK M zs avail battery payload r) :
    calculateRouteDistance M r ≤ battery := by
  obtain ⟨hhead, _, _, htail⟩ := h
  have hne : r ≠ [] := by
    intro he
    rw [he] at hhead
    simp at hhead
  obtain ⟨a, t, rfl⟩ := List.exists_cons_of_ne_nil hne
  have ha0 : a = 0 := by
    rw [List.head?_cons] at hhead
    exact Option.some.inj hhead
  subst ha0
  rcases htail with h | h
  · rw [h]
    have hc : calculateRouteDistance M [0] = 0 := by
      show M 0 0 + pathSum M [0] + M (([0] : List ℕ).getLast (by simp)) 0 = 0
      simp [pathSum, hM00]
    rw [hc]
    exact hbat
  · obtain ⟨hload, cur, hlast, hle⟩ := h
    have hgl : (0 :: t).getLast (by simp) = cur := by
      rw [List.getLast?_eq_getLast _ (by simp)] at hlast
      injection hlast
    show M 0 0 + pathSum M (0 :: t) + M ((0 :: t).getLast (by simp)) 0 ≤ battery
    rw [hM00, hgl]
    linarith

/-- Capacity safety of the fleet loop: starting from a fresh fleet (every
drone still has its constructor route `[]`), every drone of the returned
fleet carries a route whose summed non-base demand fits its payload
capacity, measured against the returned zone list. -/
theorem assignRoutes_capacity (M : ℕ → ℕ → K) :
    ∀ (ds : List (Drone K)) (zs : List (Zone K)) (a : List Bool),
      (∀ d ∈ ds, d.route = [] ∧ 0 ≤ d.payloadCapacity) →
      ∀ d' ∈ (assignRoutes M ds zs a).1,
        currentLoad (assignRoutes M ds zs a).2.1 d'.route ≤ d'.payloadCapacity
  | [], zs, a, _ => by
    intro d' hd'
    simp [assignRoutes] at hd'
  | d :: rest, zs, a, hds => by
    have hd := hds d (List.mem_cons_self d rest)
    have htl := fun x hx => hds x (List.mem_cons_of_mem d hx)
    unfold assignRoutes
    dsimp only
    split
    · intro d' hd'
      rcases List.mem_cons.1 hd' with rfl | hmem
      · rw [hd.1, currentLoad_nil]
        exact hd.2
      · exact assignRoutes_capacity M rest zs a htl d' hmem
    · intro d' hd'
      rcases List.mem_cons.1 hd' with rfl | hmem
      · dsimp only
        have hok := nearestNeighborTSP_ok M zs (availableZonesFor zs a d) d
        have hperm : List.Perm
            (if 1 < (nearestNeighborTSP M zs (availableZonesFor zs a d) d).length
              then twoOptOptimize M d.batteryCapacity
                (nearestNeighborTSP M zs (availableZonesFor zs a d) d)
              else nearestNeighborTSP M zs (availableZonesFor zs a d) d)
            (nearestNeighborTSP M zs (availableZonesFor zs a d) d) := by
          split
          · exact twoOptOptimize_perm M d.batteryCapacity _
          · exact List.Perm.refl _
        have hdem : ∀ k,
            (((assignRoutes M rest
              (markRoute (if 1 < (nearestNeighborTSP M zs (availableZonesFor zs a d) d).length
                then twoOptOptimize M d.batteryCapacity
                  (nearestNeighborTSP M zs (availableZonesFor zs a d) d)
                else nearestNeighborTSP M zs (availableZonesFor zs a d) d) zs a).1
              (markRoute (if 1 < (nearestNeighborTSP M zs (availableZonesFor zs a d) d).length
                then twoOptOptimize M d.batteryCapacity
                  (nearestNeighborTSP M zs (availableZonesFor zs a d) d)
                else nearestNeighborTSP M zs (availableZonesFor zs a d) d) zs a).2.1).2.1).getD
              k default).demand = ((zs.getD k default)).demand := by
          intro k
          rw [(assignRoutes_zones_facts M rest _ _).2 k, markRoute_demand]
        rw [currentLoad_congr hdem, currentLoad_perm zs hperm]
        rcases hok.2.2.2 with h | h
        · rw [h, currentLoad_base]
          exact hd.2
        · exact h.1
      · exact assignRoutes_capacity M rest _ _ htl d' hmem

/-- Range safety of the fleet loop: starting from a fresh fleet, every
drone of the returned fleet carries a route whose round-trip distance
(per the matrix `M` with zero diagonal) fits its battery capacity. -/
theorem assignRoutes_range (M : ℕ → ℕ → K) (hM00 : M 0 0 = 0) :
    ∀ (ds : List (Drone K)) (zs : List (Zone K)) (a : List Bool),
      (∀ d ∈ ds, d.route = [] ∧ 0 ≤ d.batteryCapacity) →
      ∀ d' ∈ (assignRoutes M ds zs a).1,
        calculateRouteDistance M d'.route ≤ d'.batteryCapacity
  | [], zs, a, _ => by
    intro d' hd'
    simp [assignRoutes] at hd'
  | d :: rest, zs, a, hds => by
    have hd := hds d (List.mem_cons_self d rest)
    have htl := fun x hx => hds x (List.mem_cons_of_mem d hx)
    unfold assignRoutes
    dsimp only
    split
    · intro d' hd'
      rcases List.mem_cons.1 hd' with rfl | hmem
      · rw [hd.1, show calculateRouteDistance M ([] : List ℕ) = 0 from rfl]
        exact hd.2
      · exact assignRoutes_range M hM00 rest zs a htl d' hmem
    · intro d' hd'
      rcases List.mem_cons.1 hd' with rfl | hmem
      · dsimp only
        have hok := nearestNeighborTSP_ok M zs (availableZonesFor zs a d) d
        have hcalc0 := NNRouteOK_calcRD_le hM00 hd.2 hok
        split
        · exact le_trans (twoOptOptimize_le_max M d.batteryCapacity _)
            (max_le hcalc0 (le_refl _))
        · exact hcalc0
      · exact assignRoutes_range M hM00 rest _ _ htl d' hmem

/-- Exclusivity of the fleet loop: starting from a fresh fleet, no route
repeats an index, a non-base index of any returned route was unassigned
before the loop and is assigned after it, and no non-base index occurs in
the routes of two different drones. -/
theorem assignRoutes_exclusive (M : ℕ → ℕ → K) :
    ∀ (ds : List (Drone K)) (zs : List (Zone K)) (a : List Bool),
      (∀ d ∈ ds, d.route = []) → a.length = zs.length →
      ((assignRoutes M ds zs a).2.2.length = a.length) ∧
      (∀ k, a.getD k false = true → (assignRoutes M ds zs a).2.2.getD k false = true) ∧
      (∀ d' ∈ (assignRoutes M ds zs a).1, d'.route.Nodup) ∧
      (∀ d' ∈ (assignRoutes M ds zs a).1, ∀ z ∈ d'.route, z ≠ 0 →
        a.getD z false = false ∧ (assignRoutes M ds zs a).2.2.getD z false = true) ∧
      (assignRoutes M ds zs a).1.Pairwise
        (fun d1 d2 => ∀ z, z ≠ 0 → z ∈ d1.route → z ∉ d2.route)
  | [], zs, a, _, _ => by
    refine ⟨rfl, fun k h => h, ?_, ?_, ?_⟩
    · intro d' hd'
      simp [assignRoutes] at hd'
    · intro d' hd'
      simp [assignRoutes] at hd'
    · show List.Pairwise _ []
      exact List.Pairwise.nil
  | d :: rest, zs, a, hds, hlen => by
    have hd := hds d (List.mem_cons_self d rest)
    have htl := fun x hx => hds x (List.mem_cons_of_mem d hx)
    unfold assignRoutes
    dsimp only
    split
    · have ih := assignRoutes_exclusive M rest zs a htl hlen
      refine ⟨ih.1, ih.2.1, ?_, ?_, ?_⟩
      · intro d' hd'
        rcases List.mem_cons.1 hd' with rfl | hmem
        · rw [hd]
          exact List.nodup_nil
        · exact ih.2.2.1 d' hmem
      · intro d' hd'
        rcases List.mem_cons.1 hd' with rfl | hmem
        · intro z hz
          rw [hd] at hz
          simp at hz
        · exact ih.2.2.2.1 d' hmem
      · rw [List.pairwise_cons]
        refine ⟨?_, ih.2.2.2.2⟩
        intro d2 _ z _ hzd
        rw [hd] at hzd
        simp at hzd
    · rename_i hav
      have hok := nearestNeighborTSP_ok M zs (availableZonesFor zs a d) d
      have hperm : List.Perm
          (if 1 < (nearestNeighborTSP M zs (availableZonesFor zs a d) d).length
            then twoOptOptimize M d.batteryCapacity
              (nearestNeighborTSP M zs (availableZonesFor zs a d) d)
            else nearestNeighborTSP M zs (availableZonesFor zs a d) d)
          (nearestNeighborTSP M zs (availableZonesFor zs a d) d) := by
        split
        · exact twoOptOptimize_perm M d.batteryCapacity _
        · exact List.Perm.refl _
      have hmemav : ∀ z ∈ (if 1 < (nearestNeighborTSP M zs
          (availableZonesFor zs a d) d).length
            then twoOptOptimize M d.batteryCapacity
              (nearestNeighborTSP M zs (availableZonesFor zs a d) d)
            else nearestNeighborTSP M zs (availableZonesFor zs a d) d), z ≠ 0 →
          z ∈ availableZonesFor zs a d := by
        intro z hz hz0
        rcases hok.2.2.1 z (hperm.mem_iff.1 hz) with h | h
        · exact absurd h hz0
        · exact h
      have hcov : ∀ z ∈ (if 1 < (nearestNeighborTSP M zs
          (availableZonesFor zs a d) d).length
            then twoOptOptimize M d.batteryCapacity
              (nearestNeighborTSP M zs (availableZonesFor zs a d) d)
            else nearestNeighborTSP M zs (availableZonesFor zs a d) d), z ≠ 0 →
          (markRoute (if 1 < (nearestNeighborTSP M zs (availableZonesFor zs a d) d).length
            then twoOptOptimize M d.batteryCapacity
              (nearestNeighborTSP M zs (availableZonesFor zs a d) d)
            else nearestNeighborTSP M zs (availableZonesFor zs a d) d) zs a).2.1.getD z
            false = true := by
        intro z hz hz0
        have := availableZonesFor_mem (hmemav z hz hz0)
        exact markRoute_assigned_covers _ zs a hz hz0 (by omega)
      have ih := assignRoutes_exclusive M rest
        (markRoute (if 1 < (nearestNeighborTSP M zs (availableZonesFor zs a d) d).length
          then twoOptOptimize M d.batteryCapacity
            (nearestNeighborTSP M zs (availableZonesFor zs a d) d)
          else nearestNeighborTSP M zs (availableZonesFor zs a d) d) zs a).1
        (markRoute (if 1 < (nearestNeighborTSP M zs (availableZonesFor zs a d) d).length
          then twoOptOptimize M d.batteryCapacity
            (nearestNeighborTSP M zs (availableZonesFor zs a d) d)
          else nearestNeighborTSP M zs (availableZonesFor zs a d) d) zs a).2.1
        htl (by rw [markRoute_assigned_length, markRoute_zones_length, hlen])
      refine ⟨?_, ?_, ?_, ?_, ?_⟩
      · rw [ih.1, markRoute_assigned_length]
      · intro k hk
        exact ih.2.1 k (markRoute_assigned_mono _ zs a hk)
      · intro d' hd'
        rcases List.mem_cons.1 hd' with rfl | hmem
        · dsimp only
          exact hperm.nodup_iff.2 hok.2.1
        · exact ih.2.2.1 d' hmem
      · intro d' hd'
        rcases List.mem_cons.1 hd' with rfl | hmem
        · intro z hz hz0
          dsimp only at hz
          refine ⟨(availableZonesFor_mem (hmemav z hz hz0)).2.2.1, ?_⟩
          exact ih.2.1 z (hcov z hz hz0)
        · intro z hz hz0
          have h4 := ih.2.2.2.1 d' hmem z hz hz0
          refine ⟨?_, h4.2⟩
          by_contra habs
          have : a.getD z false = true := by
            cases hb : a.getD z false with
            | false => exact absurd hb habs
            | true => rfl
          exact absurd (markRoute_assigned_mono _ zs a this) (by rw [h4.1]; simp)
      · rw [List.pairwise_cons]
        refine ⟨?_, ih.2.2.2.2⟩
        intro d2 hd2 z hz0 hzroute hzd2
        have h4 := ih.2.2.2.1 d2 hd2 z hzd2 hz0
        exact absurd (hcov z hzroute hz0) (by rw [h4.1]; simp)

theorem buildDistanceMatrix_diag (dist : K → K → K → K → K) (zs : List (Zone K))
    {i : ℕ} (hi : i < zs.length) :
    mGet (buildDistanceMatrix dist zs) i i = 0 := by
  simp [mGet, buildDistanceMatrix, List.getD_eq_getElem?_getD, List.getElem?_map,
    List.getElem?_range, hi]

/-- Claim C1.  After every successful `optimize()` call on a fresh fleet
(each vehicle still carrying its constructor route `[]` and a
nonnegative payload capacity), every vehicle of the resulting fleet
satisfies the capacity invariant: the sum of the demands of the non-base
entries of its computed route, read off the resulting zone list, is at
most its payload capacity. -/
theorem optimize_capacity_invariant (dist : K → K → K → K → K) (s : State K)
    (hfresh : ∀ d ∈ s.drones, d.route = [] ∧ 0 ≤ d.payloadCapacity) :
    ∀ p ∈ (optimize dist s).toOption, ∀ d' ∈ p.1.drones,
      currentLoad p.1.zones d'.route ≤ d'.payloadCapacity := by
  intro p hp
  unfold optimize at hp
  dsimp only at hp
  split at hp
  · simp [Except.toOption] at hp
  · simp only [Except.toOption] at hp
    rw [Option.mem_def] at hp
    injection hp with hp
    subst hp
    intro d' hd'
    exact assignRoutes_capacity _ s.drones _ _ hfresh d' hd'

/-- Claim C2.  After every successful `optimize()` call on a fresh fleet
(each vehicle still carrying its constructor route `[]` and a
nonnegative battery capacity), every vehicle of the resulting fleet
satisfies the range invariant: the round-trip distance of its computed
route, measured by the distance matrix stored in the resulting state, is
at most its battery capacity. -/
theorem optimize_range_invariant (dist : K → K → K → K → K) (s : State K)
    (hfresh : ∀ d ∈ s.drones, d.route = [] ∧ 0 ≤ d.batteryCapacity) :
    ∀ p ∈ (optimize dist s).toOption, ∀ d' ∈ p.1.drones,
      calculateRouteDistance (mGet p.1.distanceMatrix) d'.route ≤ d'.batteryCapacity := by
  intro p hp
  unfold optimize at hp
  dsimp only at hp
  split at hp
  · simp [Except.toOption] at hp
  · rename_i hne
    simp only [Except.toOption] at hp
    rw [Option.mem_def] at hp
    injection hp with hp
    subst hp
    intro d' hd'
    have hzne : s.zones ≠ [] := by
      intro h
      rw [h] at hne
      simp [sortZonesByPriority] at hne
    have hM00 : mGet (buildDistanceMatrix dist s.zones) 0 0 = 0 :=
      buildDistanceMatrix_diag dist s.zones (List.length_pos.2 hzne)
    exact assignRoutes_range _ hM00 s.drones _ _ hfresh d' hd'

/-- Claim C3.  Within a single `optimize()` call on a fresh fleet (each
vehicle still carrying its constructor route `[]`), no route of the
resulting fleet repeats an index, and no non-base index appears in the
routes of two different vehicles: once a zone is taken by an earlier
vehicle's accepted route, no later vehicle's route contains it. -/
theorem optimize_exclusivity_invariant (dist : K → K → K → K → K) (s : State K)
    (hfresh : ∀ d ∈ s.drones, d.route = []) :
    ∀ p ∈ (optimize dist s).toOption,
      (∀ d' ∈ p.1.drones, d'.route.Nodup) ∧
      p.1.drones.Pairwise (fun d1 d2 => ∀ z, z ≠ 0 → z ∈ d1.route → z ∉ d2.route) := by
  intro p hp
  unfold optimize at hp
  dsimp only at hp
  split at hp
  · simp [Except.toOption] at hp
  · simp only [Except.toOption] at hp
    rw [Option.mem_def] at hp
    injection hp with hp
    subst hp
    have hlen : ∀ zs2 : List (Zone K),
        ((List.replicate zs2.length false).set 0 true).length = zs2.length := fun zs2 => by
      simp
    exact ⟨(assignRoutes_exclusive _ s.drones _ _ hfresh (hlen _)).2.2.1,
      (assignRoutes_exclusive _ s.drones _ _ hfresh (hlen _)).2.2.2.2⟩

/-- Claim C7.  For every input route and battery ceiling, and any
symmetric distance matrix (`buildDistanceMatrix` always produces one),
the route returned by `twoOptOptimize` is a permutation of the input
route's stops, and its round-trip distance is at most that of the input
route. -/
theorem twoOptOptimize_improvement (maxDistance : K) (route : List ℕ)
    (hsym : ∀ a b : ℕ, M a b = M b a) :
    List.Perm (twoOptOptimize M maxDistance route) route ∧
    calculateRouteDistance M (twoOptOptimize M maxDistance route) ≤
      calculateRouteDistance M route :=
  ⟨twoOptOptimize_perm M maxDistance route, twoOptOptimize_le_symm M hsym maxDistance route⟩

/-- Claim C10.  `setBase` replaces only the id-0 base entry: the non-base
requests are preserved object-for-object and in order (the sublist of
entries with nonzero id is unchanged), the new base sits at position 0
with id 0, priority 0, demand 0 and a cleared served flag, and the fleet
is untouched. -/
theorem setBase_preserves_requests (lat lng : K) (s : State K) :
    ((setBase lat lng s).zones).filter (fun z => z.id != 0) =
      s.zones.filter (fun z => z.id != 0) ∧
    (setBase lat lng s).zones.head? = some ⟨0, 0, 0, lat, lng, false⟩ ∧
    (setBase lat lng s).drones = s.drones := by
  refine ⟨?_, rfl, rfl⟩
  show List.filter (fun z => z.id != 0)
    (⟨0, 0, 0, lat, lng, false⟩ :: s.zones.filter fun z => z.id != 0) = _
  rw [List.filter_cons_of_neg (by simp)]
  rw [List.filter_filter]
  simp

end DDO

namespace Hav

/-- Claim C8.  For every sequence of locations, `buildDistanceMatrix`
produces a square matrix that is symmetric and has a zero diagonal. -/
theorem buildDistanceMatrix_square_symm_diag (pts : List (ℝ × ℝ)) {i j : ℕ}
    (hi : i < pts.length) (hj : j < pts.length) :
    (buildDistanceMatrix pts).length = pts.length ∧
    (∀ row ∈ buildDistanceMatrix pts, row.length = pts.length) ∧
    mGet (buildDistanceMatrix pts) i j = mGet (buildDistanceMatrix pts) j i ∧
    mGet (buildDistanceMatrix pts) i i = 0 := by
  refine ⟨by simp [buildDistanceMatrix], ?_, ?_, ?_⟩
  · intro row hrow
    unfold buildDistanceMatrix at hrow
    rw [List.mem_map] at hrow
    obtain ⟨k, _, hk⟩ := hrow
    rw [← hk]
    simp
  · rw [buildDistanceMatrix_entry pts hi hj, buildDistanceMatrix_entry pts hj hi]
    by_cases hij : i = j
    · simp [hij]
    · rw [if_neg hij, if_neg (fun h => hij h.symm), calculateDistance_symm]
  · rw [buildDistanceMatrix_entry pts hi hi, if_pos rfl]

/-- Witness for claim C8 at the two concrete locations of `exPts`. -/
theorem buildDistanceMatrix_square_symm_diag_witness :
    ((0 : ℕ) < exPts.length ∧ (1 : ℕ) < exPts.length) ∧
    ((buildDistanceMatrix exPts).length = exPts.length ∧
    (∀ row ∈ buildDistanceMatrix exPts, row.length = exPts.length) ∧
    mGet (buildDistanceMatrix exPts) 0 1 = mGet (buildDistanceMatrix exPts) 1 0 ∧
    mGet (buildDistanceMatrix exPts) 0 0 = 0) :=
  ⟨⟨by decide, by decide⟩,
    buildDistanceMatrix_square_symm_diag exPts (by decide) (by decide)⟩

/-- On the equator (latitude 0) the haversine formula collapses to an
exact closed form: for longitudes `a < b` less than 180 degrees apart,
`calculateDistance` returns the arc length `6371 * toRad (b - a)`.  (The
latitude terms vanish, the square roots recover `sin` and `cos` of half
the longitude gap, and `atan2` undoes the tangent.) -/
theorem calculateDistance_equator {a b : ℝ} (hab : a < b) (h180 : b - a < 180) :
    calculateDistance 0 a 0 b = 6371 * ((b - a) * (Real.pi / 180)) := by
  unfold calculateDistance
  dsimp only
  have h00 : toRad (0 - 0) = 0 := by unfold toRad; ring
  have hc0 : Real.cos (toRad 0) = 1 := by
    unfold toRad
    rw [zero_mul, Real.cos_zero]
  set x := toRad (b - a) / 2 with hx
  have hba : 0 < b - a := sub_pos.2 hab
  have hπ := Real.pi_pos
  have hx0 : 0 < x := by
    rw [hx]; unfold toRad
    apply div_pos (mul_pos hba (by positivity)) two_pos
  have hx2 : x < Real.pi / 2 := by
    rw [hx]; unfold toRad
    nlinarith [mul_pos (show (0:ℝ) < 180 - (b - a) by linarith) Real.pi_pos]
  have hsin : 0 ≤ Real.sin x :=
    Real.sin_nonneg_of_nonneg_of_le_pi (le_of_lt hx0) (by linarith)
  have hcos : 0 < Real.cos x := Real.cos_pos_of_mem_Ioo ⟨by linarith, hx2⟩
  rw [h00, zero_div, Real.sin_zero, hc0]
  rw [show (0:ℝ) * 0 + 1 * 1 * Real.sin x * Real.sin x = Real.sin x * Real.sin x from by ring]
  rw [Real.sqrt_mul_self hsin]
  rw [show 1 - Real.sin x * Real.sin x = Real.cos x * Real.cos x from by
    nlinarith [Real.sin_sq_add_cos_sq x]]
  rw [Real.sqrt_mul_self (le_of_lt hcos)]
  unfold atan2
  rw [if_pos hcos]
  rw [← Real.tan_eq_sin_div_cos, Real.arctan_tan (by linarith) hx2]
  rw [hx]
  unfold toRad
  ring

end Hav

namespace DDO

variable {K : Type} [LinearOrderedField K]

theorem availableZonesFor_single (zb : Zone K) (a : List Bool) (d : Drone K) :
    availableZonesFor [zb] a d = [] := rfl

theorem assignRoutes_single (M : ℕ → ℕ → K) (zb : Zone K) (a : List Bool) :
    ∀ ds : List (Drone K), assignRoutes M ds [zb] a = (ds, [zb], a)
  | [] => rfl
  | d :: rest => by
    unfold assignRoutes
    dsimp only
    rw [availableZonesFor_single zb a d]
    rw [if_pos (show ([] : List ℕ).isEmpty = true from rfl)]
    rw [assignRoutes_single M zb a rest]

/-- Claim C4 (amended).  With only the base entry present (its id is 0)
and a fresh fleet, `optimize()` does not fail: it returns normally with a
silently-empty result — zero zones served out of zero total, every
drone's route left empty.  (Only a fully empty zone list makes
`optimize()` throw, and that is a `TypeError`, not an InsufficientInput
condition; the add-zones-first check lives in the UI caller.) -/
theorem optimize_base_only_returns_ok (dist : K → K → K → K → K) (s : State K)
    (b : Zone K) (hz : s.zones = [b]) (hb : b.id = 0)
    (hfresh : ∀ d ∈ s.drones, d.route = []) :
    (optimize dist s).isOk = true ∧
    ∀ p ∈ (optimize dist s).toOption,
      p.2.summary.zonesServed = 0 ∧ p.2.summary.totalZones = 0 ∧
      ∀ d' ∈ p.1.drones, d'.route = [] := by
  cases s with
  | mk zs ds m bl =>
    dsimp only at hz hfresh
    subst hz
    have hopt : optimize dist (⟨[b], ds, m, bl⟩ : State K) =
        Except.ok
          (⟨(assignRoutes (mGet (buildDistanceMatrix dist [b])) ds
              [⟨b.id, b.priority, b.demand, b.lat, b.lng, true⟩] [true]).2.1,
            (assignRoutes (mGet (buildDistanceMatrix dist [b])) ds
              [⟨b.id, b.priority, b.demand, b.lat, b.lng, true⟩] [true]).1,
            buildDistanceMatrix dist [b], bl⟩,
          getResults
            ⟨(assignRoutes (mGet (buildDistanceMatrix dist [b])) ds
              [⟨b.id, b.priority, b.demand, b.lat, b.lng, true⟩] [true]).2.1,
            (assignRoutes (mGet (buildDistanceMatrix dist [b])) ds
              [⟨b.id, b.priority, b.demand, b.lat, b.lng, true⟩] [true]).1,
            buildDistanceMatrix dist [b], bl⟩) := rfl
    rw [assignRoutes_single (mGet (buildDistanceMatrix dist [b]))
      (⟨b.id, b.priority, b.demand, b.lat, b.lng, true⟩ : Zone K) [true] ds] at hopt
    dsimp only at hopt
    constructor
    · rw [hopt]
      rfl
    · intro p hp
      rw [hopt] at hp
      simp only [Except.toOption] at hp
      rw [Option.mem_def] at hp
      injection hp with hp
      subst hp
      refine ⟨?_, ?_, ?_⟩
      · show (List.filter _ [(⟨b.id, b.priority, b.demand, b.lat, b.lng, true⟩ : Zone K)]).length = 0
        rw [List.filter_cons_of_neg (by simp [hb])]
        rfl
      · rfl
      · exact hfresh

/-- Claim C5 (amended).  `addZone` and `addDrone` perform no validation:
a request with nonpositive demand or a priority outside {1,2,3} is still
appended (only its id is overwritten with the next sequential value, its
other fields kept verbatim), and a vehicle with nonpositive battery
range or payload capacity is appended unchanged.  No ValidationError
exists. -/
theorem addZone_addDrone_no_validation (s : State K) (z : Zone K) (d : Drone K)
    (hz : z.demand ≤ 0 ∨ (z.priority ≠ 1 ∧ z.priority ≠ 2 ∧ z.priority ≠ 3))
    (hd : d.batteryCapacity ≤ 0 ∨ d.payloadCapacity ≤ 0) :
    (addZone z s).zones.length = s.zones.length + 1 ∧
    ((addZone z s).zones.getLast?).map
      (fun w => (w.priority, w.demand, w.lat, w.lng)) =
      some (z.priority, z.demand, z.lat, z.lng) ∧
    (addDrone d s).drones = s.drones ++ [d] := by
  refine ⟨?_, ?_, rfl⟩
  · unfold addZone
    simp
  · unfold addZone
    dsimp only
    rw [List.getLast?_concat]
    rfl

/-- Claim C9 (amended).  `optimize()` reads only the zone and drone lists
of the instance: two calls on states with identical zones and drones (in
identical order) produce identical resulting zones, drones, distance
matrix and results, regardless of any leftover `distanceMatrix` or
`baseLocation` values.  (A second call on the same unmodified instance is
NOT covered: the first call re-sorts the zones after building the
matrix, so the second call computes from a differently-indexed matrix.) -/
theorem optimize_state_determinism (dist : K → K → K → K → K)
    (zones : List (Zone K)) (drones : List (Drone K)) (m1 m2 : List (List K))
    (b1 b2 : Option (K × K)) :
    (optimize dist ⟨zones, drones, m1, b1⟩).map
      (fun p => (p.1.zones, p.1.drones, p.1.distanceMatrix, p.2)) =
    (optimize dist ⟨zones, drones, m2, b2⟩).map
      (fun p => (p.1.zones, p.1.drones, p.1.distanceMatrix, p.2)) := by
  unfold optimize
  dsimp only
  by_cases h : (sortZonesByPriority zones).isEmpty = true
  · rw [if_pos h, if_pos h]
  · rw [if_neg h, if_neg h]
    rfl

/-- The first `optimize()` call of the two-call scenario, traced for
every distance function under the three range comparisons of the run:
the short round trip fits the 250 battery (`h1`), the long one does not
(`h2`), nor does the combined tour (`h3`).  Because the matrix is built
before the sort, the scan reads the SHORT pre-sort distance for sorted
index 1 (the critical zone) and routes the drone there. -/
theorem c9_first_call (dist : K → K → K → K → K)
    (h1 : dist 0 0 0 1 + dist 0 1 0 0 ≤ 250)
    (h2 : ¬(dist 0 0 0 10 + dist 0 10 0 0 ≤ 250))
    (h3 : ¬(dist 0 0 0 1 + dist 0 1 0 10 + dist 0 10 0 0 ≤ 250)) :
    optimize dist (c9State : State K) = Except.ok (c9Mid dist, getResults (c9Mid dist)) := by
  have hacc1 : (0:K) + mGet (buildDistanceMatrix dist [c9zBase, c9zLow, c9zCrit]) 0 1 +
      mGet (buildDistanceMatrix dist [c9zBase, c9zLow, c9zCrit]) 1 0 ≤ 250 := by
    show (0:K) + dist 0 0 0 1 + dist 0 1 0 0 ≤ 250
    linarith
  have hrej2 : ¬((0:K) + mGet (buildDistanceMatrix dist [c9zBase, c9zLow, c9zCrit]) 0 2 +
      mGet (buildDistanceMatrix dist [c9zBase, c9zLow, c9zCrit]) 2 0 ≤ 250) := by
    show ¬((0:K) + dist 0 0 0 10 + dist 0 10 0 0 ≤ 250)
    intro h
    exact h2 (by linarith)
  have hrej3 : ¬((0:K) + mGet (buildDistanceMatrix dist [c9zBase, c9zLow, c9zCrit]) 0 1 +
      mGet (buildDistanceMatrix dist [c9zBase, c9zLow, c9zCrit]) 1 2 +
      mGet (buildDistanceMatrix dist [c9zBase, c9zLow, c9zCrit]) 2 0 ≤ 250) := by
    show ¬((0:K) + dist 0 0 0 1 + dist 0 1 0 10 + dist 0 10 0 0 ≤ 250)
    intro h
    exact h3 (by linarith)
  have hload1 : currentLoad ([c9zBaseS, c9zCrit, c9zLow] : List (Zone K)) [0] +
      (([c9zBaseS, c9zCrit, c9zLow] : List (Zone K)).getD 1 default).demand ≤ (10:K) := by
    show (0:K) + 1 ≤ 10
    norm_num
  have hstep11 : nnStep (mGet (buildDistanceMatrix dist [c9zBase, c9zLow, c9zCrit]))
      [c9zBaseS, c9zCrit, c9zLow] 250 10 [0] [0] 0 0 ((none : Option ℕ), (none : Option K)) 1 =
      (some 1, some (mGet (buildDistanceMatrix dist [c9zBase, c9zLow, c9zCrit]) 0 1 / 1)) := by
    unfold nnStep
    rw [if_neg (fun h => Bool.noConfusion h)]
    dsimp only
    rw [decide_eq_true hacc1, Bool.true_and,
      show ∀ e : K, effLt e none = true from fun e => rfl, if_pos rfl]
    rw [decide_eq_true hload1, if_pos rfl]
    rfl
  have hstep12 : nnStep (mGet (buildDistanceMatrix dist [c9zBase, c9zLow, c9zCrit]))
      [c9zBaseS, c9zCrit, c9zLow] 250 10 [0] [0] 0 0
      (some 1, some (mGet (buildDistanceMatrix dist [c9zBase, c9zLow, c9zCrit]) 0 1 / 1)) 2 =
      (some 1, some (mGet (buildDistanceMatrix dist [c9zBase, c9zLow, c9zCrit]) 0 1 / 1)) := by
    unfold nnStep
    rw [if_neg (fun h => Bool.noConfusion h)]
    dsimp only
    rw [decide_eq_false hrej2, Bool.false_and, if_neg (fun h => Bool.noConfusion h)]
  have hfn11 : findNearest (mGet (buildDistanceMatrix dist [c9zBase, c9zLow, c9zCrit]))
      [c9zBaseS, c9zCrit, c9zLow] [1, 2] 250 10 [0] [0] 0 0 =
      (some 1, some (mGet (buildDistanceMatrix dist [c9zBase, c9zLow, c9zCrit]) 0 1 / 1)) := by
    unfold findNearest
    rw [List.foldl_cons, hstep11, List.foldl_cons, hstep12, List.foldl_nil]
  have hstep1b : nnStep (mGet (buildDistanceMatrix dist [c9zBase, c9zLow, c9zCrit]))
      [c9zBaseS, c9zCrit, c9zLow] 250 10 [0, 1] [1, 0] 1
      (0 + mGet (buildDistanceMatrix dist [c9zBase, c9zLow, c9zCrit]) 0 1)
      ((none : Option ℕ), (none : Option K)) 2 = (none, none) := by
    unfold nnStep
    rw [if_neg (fun h => Bool.noConfusion h)]
    dsimp only
    rw [decide_eq_false hrej3, Bool.false_and, if_neg (fun h => Bool.noConfusion h)]
  have hfn12 : findNearest (mGet (buildDistanceMatrix dist [c9zBase, c9zLow, c9zCrit]))
      [c9zBaseS, c9zCrit, c9zLow] [1, 2] 250 10 [0, 1] [1, 0] 1
      (0 + mGet (buildDistanceMatrix dist [c9zBase, c9zLow, c9zCrit]) 0 1) =
      ((none : Option ℕ), (none : Option K)) := by
    unfold findNearest
    rw [List.foldl_cons,
      show nnStep (mGet (buildDistanceMatrix dist [c9zBase, c9zLow, c9zCrit]))
        [c9zBaseS, c9zCrit, c9zLow] (250:K) 10 [0, 1] [1, 0] 1
        (0 + mGet (buildDistanceMatrix dist [c9zBase, c9zLow, c9zCrit]) 0 1)
        ((none : Option ℕ), (none : Option K)) 1 = (none, none) from rfl,
      List.foldl_cons, hstep1b, List.foldl_nil]
  have hl12 : ∀ f : ℕ, nnLoop (mGet (buildDistanceMatrix dist [c9zBase, c9zLow, c9zCrit]))
      [c9zBaseS, c9zCrit, c9zLow] [1, 2] (250:K) 10 (f + 1) [0, 1] [1, 0] 1
      (0 + mGet (buildDistanceMatrix dist [c9zBase, c9zLow, c9zCrit]) 0 1) = [0, 1] := by
    intro f
    conv_lhs => rw [nnLoop, hfn12]
  have hl11 : ∀ f : ℕ, nnLoop (mGet (buildDistanceMatrix dist [c9zBase, c9zLow, c9zCrit]))
      [c9zBaseS, c9zCrit, c9zLow] [1, 2] (250:K) 10 (f + 1 + 1) [0] [0] 0 0 = [0, 1] := by
    intro f
    conv_lhs => rw [nnLoop, hfn11]
    show nnLoop (mGet (buildDistanceMatrix dist [c9zBase, c9zLow, c9zCrit]))
      [c9zBaseS, c9zCrit, c9zLow] [1, 2] (250:K) 10 (f + 1) [0, 1] [1, 0] 1
      (0 + mGet (buildDistanceMatrix dist [c9zBase, c9zLow, c9zCrit]) 0 1) = [0, 1]
    exact hl12 f
  have hnn1 : nearestNeighborTSP (mGet (buildDistanceMatrix dist [c9zBase, c9zLow, c9zCrit]))
      [c9zBaseS, c9zCrit, c9zLow] [1, 2] c9drone = [0, 1] := by
    unfold nearestNeighborTSP
    dsimp only [c9drone]
    rw [show List.length ([1, 2] : List ℕ) = 0 + 1 + 1 from rfl]
    exact hl11 0
  have hav1 : availableZonesFor ([c9zBaseS, c9zCrit, c9zLow] : List (Zone K))
      [true, false, false] c9drone = [1, 2] := by
    unfold availableZonesFor
    rw [show List.range (List.length ([c9zBaseS, c9zCrit, c9zLow] : List (Zone K))) = [0, 1, 2]
      from rfl]
    rw [List.filter_cons, List.filter_cons, List.filter_cons, List.filter_nil]
    rw [decide_eq_true (show ((([c9zBaseS, c9zCrit, c9zLow] : List (Zone K)).getD 1
      default).demand ≤ c9drone.payloadCapacity) from by show (1:K) ≤ 10; norm_num)]
    rw [decide_eq_true (show ((([c9zBaseS, c9zCrit, c9zLow] : List (Zone K)).getD 2
      default).demand ≤ c9drone.payloadCapacity) from by show (1:K) ≤ 10; norm_num)]
    rfl
  have hzb1 : zoneBefore (c9zCrit : Zone K) c9zLow = true := by
    unfold zoneBefore c9zCrit c9zLow
    dsimp only
    rw [decide_eq_true (show (1:K) < 3 from by norm_num)]
    rfl
  have hsort1 : sortZonesByPriority ([c9zBase, c9zLow, c9zCrit] : List (Zone K)) =
      [c9zBase, c9zCrit, c9zLow] := by
    unfold sortZonesByPriority
    simp only [List.foldl_cons, List.foldl_nil]
    rw [show insertZone (c9zLow : Zone K) [] = [c9zLow] from rfl]
    unfold insertZone
    rw [hzb1]
    rw [if_pos rfl]
  have hassign1 : assignRoutes (mGet (buildDistanceMatrix dist [c9zBase, c9zLow, c9zCrit]))
      [c9drone] [c9zBaseS, c9zCrit, c9zLow] [true, false, false] =
      ([⟨0, 250, 10, [0, 1],
          calculateRouteDistance (mGet (buildDistanceMatrix dist [c9zBase, c9zLow, c9zCrit]))
            [0, 1], 0 + 1⟩],
        [c9zBaseS, c9zCritS, c9zLow], [true, true, false]) := by
    unfold assignRoutes
    dsimp only
    rw [hav1]
    rw [if_neg (fun h => Bool.noConfusion h)]
    rw [hnn1]
    rfl
  unfold optimize
  dsimp only [c9State]
  rw [if_neg (fun h => Bool.noConfusion h)]
  rw [hsort1]
  exact congrArg (fun r : List (Drone K) × List (Zone K) × List Bool =>
    Except.ok ((⟨r.2.1, r.1, buildDistanceMatrix dist [c9zBase, c9zLow, c9zCrit],
        some (0, 0)⟩ : State K),
      getResults (⟨r.2.1, r.1, buildDistanceMatrix dist [c9zBase, c9zLow, c9zCrit],
        some (0, 0)⟩ : State K))) hassign1

/-- The second `optimize()` call of the two-call scenario, under the same
three range comparisons: the matrix is now rebuilt from the sorted zone
order, so sorted index 1 (the critical zone) carries its real LONG
distance and is rejected, and the drone is routed to index 2 instead. -/
theorem c9_second_call (dist : K → K → K → K → K)
    (h1 : dist 0 0 0 1 + dist 0 1 0 0 ≤ 250)
    (h2 : ¬(dist 0 0 0 10 + dist 0 10 0 0 ≤ 250))
    (h3 : ¬(dist 0 0 0 1 + dist 0 1 0 10 + dist 0 10 0 0 ≤ 250)) :
    ((optimize dist (c9Mid dist : State K)).toOption.map fun q =>
      q.1.drones.map fun d => d.route) = some [[0, 2]] := by
  have hrej2b : ¬((0:K) + mGet (buildDistanceMatrix dist [c9zBaseS, c9zCritS, c9zLow]) 0 1 +
      mGet (buildDistanceMatrix dist [c9zBaseS, c9zCritS, c9zLow]) 1 0 ≤ 250) := by
    show ¬((0:K) + dist 0 0 0 10 + dist 0 10 0 0 ≤ 250)
    intro h
    exact h2 (by linarith)
  have hacc2 : (0:K) + mGet (buildDistanceMatrix dist [c9zBaseS, c9zCritS, c9zLow]) 0 2 +
      mGet (buildDistanceMatrix dist [c9zBaseS, c9zCritS, c9zLow]) 2 0 ≤ 250 := by
    show (0:K) + dist 0 0 0 1 + dist 0 1 0 0 ≤ 250
    linarith
  have hrej3b : ¬((0:K) + mGet (buildDistanceMatrix dist [c9zBaseS, c9zCritS, c9zLow]) 0 2 +
      mGet (buildDistanceMatrix dist [c9zBaseS, c9zCritS, c9zLow]) 2 1 +
      mGet (buildDistanceMatrix dist [c9zBaseS, c9zCritS, c9zLow]) 1 0 ≤ 250) := by
    show ¬((0:K) + dist 0 0 0 1 + dist 0 1 0 10 + dist 0 10 0 0 ≤ 250)
    intro h
    exact h3 (by linarith)
  have hload2 : currentLoad ([c9zBaseS, c9zCrit, c9zLow] : List (Zone K)) [0] +
      (([c9zBaseS, c9zCrit, c9zLow] : List (Zone K)).getD 2 default).demand ≤ (10:K) := by
    show (0:K) + 1 ≤ 10
    norm_num
  have hstep21 : nnStep (mGet (buildDistanceMatrix dist [c9zBaseS, c9zCritS, c9zLow]))
      [c9zBaseS, c9zCrit, c9zLow] 250 10 [0] [0] 0 0 ((none : Option ℕ), (none : Option K)) 1 =
      (none, none) := by
    unfold nnStep
    rw [if_neg (fun h => Bool.noConfusion h)]
    dsimp only
    rw [decide_eq_false hrej2b, Bool.false_and, if_neg (fun h => Bool.noConfusion h)]
  have hstep22 : nnStep (mGet (buildDistanceMatrix dist [c9zBaseS, c9zCritS, c9zLow]))
      [c9zBaseS, c9zCrit, c9zLow] 250 10 [0] [0] 0 0 ((none : Option ℕ), (none : Option K)) 2 =
      (some 2, some (mGet (buildDistanceMatrix dist [c9zBaseS, c9zCritS, c9zLow]) 0 2 / 3)) := by
    unfold nnStep
    rw [if_neg (fun h => Bool.noConfusion h)]
    dsimp only
    rw [decide_eq_true hacc2, Bool.true_and,
      show ∀ e : K, effLt e none = true from fun e => rfl, if_pos rfl]
    rw [decide_eq_true hload2, if_pos rfl]
    rfl
  have hfn21 : findNearest (mGet (buildDistanceMatrix dist [c9zBaseS, c9zCritS, c9zLow]))
      [c9zBaseS, c9zCrit, c9zLow] [1, 2] 250 10 [0] [0] 0 0 =
      (some 2, some (mGet (buildDistanceMatrix dist [c9zBaseS, c9zCritS, c9zLow]) 0 2 / 3)) := by
    unfold findNearest
    rw [List.foldl_cons, hstep21, List.foldl_cons, hstep22, List.foldl_nil]
  have hstep2b : nnStep (mGet (buildDistanceMatrix dist [c9zBaseS, c9zCritS, c9zLow]))
      [c9zBaseS, c9zCrit, c9zLow] 250 10 [0, 2] [2, 0] 2
      (0 + mGet (buildDistanceMatrix dist [c9zBaseS, c9zCritS, c9zLow]) 0 2)
      ((none : Option ℕ), (none : Option K)) 1 = (none, none) := by
    unfold nnStep
    rw [if_neg (fun h => Bool.noConfusion h)]
    dsimp only
    rw [decide_eq_false hrej3b, Bool.false_and, if_neg (fun h => Bool.noConfusion h)]
  have hfn22 : findNearest (mGet (buildDistanceMatrix dist [c9zBaseS, c9zCritS, c9zLow]))
      [c9zBaseS, c9zCrit, c9zLow] [1, 2] 250 10 [0, 2] [2, 0] 2
      (0 + mGet (buildDistanceMatrix dist [c9zBaseS, c9zCritS, c9zLow]) 0 2) =
      ((none : Option ℕ), (none : Option K)) := by
    unfold findNearest
    rw [List.foldl_cons, hstep2b, List.foldl_cons,
      show nnStep (mGet (buildDistanceMatrix dist [c9zBaseS, c9zCritS, c9zLow]))
        [c9zBaseS, c9zCrit, c9zLow] (250:K) 10 [0, 2] [2, 0] 2
        (0 + mGet (buildDistanceMatrix dist [c9zBaseS, c9zCritS, c9zLow]) 0 2)
        ((none : Option ℕ), (none : Option K)) 2 = (none, none) from rfl,
      List.foldl_nil]
  have hl22 : ∀ f : ℕ, nnLoop (mGet (buildDistanceMatrix dist [c9zBaseS, c9zCritS, c9zLow]))
      [c9zBaseS, c9zCrit, c9zLow] [1, 2] (250:K) 10 (f + 1) [0, 2] [2, 0] 2
      (0 + mGet (buildDistanceMatrix dist [c9zBaseS, c9zCritS, c9zLow]) 0 2) = [0, 2] := by
    intro f
    conv_lhs => rw [nnLoop, hfn22]
  have hl21 : ∀ f : ℕ, nnLoop (mGet (buildDistanceMatrix dist [c9zBaseS, c9zCritS, c9zLow]))
      [c9zBaseS, c9zCrit, c9zLow] [1, 2] (250:K) 10 (f + 1 + 1) [0] [0] 0 0 = [0, 2] := by
    intro f
    conv_lhs => rw [nnLoop, hfn21]
    show nnLoop (mGet (buildDistanceMatrix dist [c9zBaseS, c9zCritS, c9zLow]))
      [c9zBaseS, c9zCrit, c9zLow] [1, 2] (250:K) 10 (f + 1) [0, 2] [2, 0] 2
      (0 + mGet (buildDistanceMatrix dist [c9zBaseS, c9zCritS, c9zLow]) 0 2) = [0, 2]
    exact hl22 f
  have hnn2 : nearestNeighborTSP (mGet (buildDistanceMatrix dist [c9zBaseS, c9zCritS, c9zLow]))
      [c9zBaseS, c9zCrit, c9zLow] [1, 2]
      ⟨0, 250, 10, [0, 1],
        calculateRouteDistance (mGet (buildDistanceMatrix dist [c9zBase, c9zLow, c9zCrit]))
          [0, 1], 0 + 1⟩ = [0, 2] := by
    unfold nearestNeighborTSP
    dsimp only
    rw [show List.length ([1, 2] : List ℕ) = 0 + 1 + 1 from rfl]
    exact hl21 0
  have hav2 : availableZonesFor ([c9zBaseS, c9zCrit, c9zLow] : List (Zone K))
      [true, false, false]
      ⟨0, 250, 10, [0, 1],
        calculateRouteDistance (mGet (buildDistanceMatrix dist [c9zBase, c9zLow, c9zCrit]))
          [0, 1], 0 + 1⟩ = [1, 2] := by
    unfold availableZonesFor
    rw [show List.range (List.length ([c9zBaseS, c9zCrit, c9zLow] : List (Zone K))) = [0, 1, 2]
      from rfl]
    rw [List.filter_cons, List.filter_cons, List.filter_cons, List.filter_nil]
    rw [decide_eq_true (show ((([c9zBaseS, c9zCrit, c9zLow] : List (Zone K)).getD 1
      default).demand ≤ (10:K)) from by show (1:K) ≤ 10; norm_num)]
    rw [decide_eq_true (show ((([c9zBaseS, c9zCrit, c9zLow] : List (Zone K)).getD 2
      default).demand ≤ (10:K)) from by show (1:K) ≤ 10; norm_num)]
    rfl
  have hzb2 : zoneBefore (c9zLow : Zone K) c9zCritS = false := by
    unfold zoneBefore c9zLow c9zCritS
    dsimp only
    rw [decide_eq_false (show ¬((3:K) < 1) from by norm_num),
      decide_eq_false (show ¬((3:K) = 1) from by norm_num)]
    rfl
  have hsort2 : sortZonesByPriority ([c9zBaseS, c9zCritS, c9zLow] : List (Zone K)) =
      [c9zBaseS, c9zCritS, c9zLow] := by
    unfold sortZonesByPriority
    simp only [List.foldl_cons, List.foldl_nil]
    rw [show insertZone (c9zCritS : Zone K) [] = [c9zCritS] from rfl]
    unfold insertZone
    rw [hzb2]
    rw [if_neg (fun h => Bool.noConfusion h)]
    rfl
  have hassign2 : assignRoutes (mGet (buildDistanceMatrix dist [c9zBaseS, c9zCritS, c9zLow]))
      [⟨0, 250, 10, [0, 1],
        calculateRouteDistance (mGet (buildDistanceMatrix dist [c9zBase, c9zLow, c9zCrit]))
          [0, 1], 0 + 1⟩]
      [c9zBaseS, c9zCrit, c9zLow] [true, false, false] =
      ([⟨0, 250, 10, [0, 2],
          calculateRouteDistance (mGet (buildDistanceMatrix dist [c9zBaseS, c9zCritS, c9zLow]))
            [0, 2], 0 + 1⟩],
        [c9zBaseS, c9zCrit, c9zLowS], [true, false, true]) := by
    unfold assignRoutes
    dsimp only
    rw [hav2]
    rw [if_neg (fun h => Bool.noConfusion h)]
    rw [hnn2]
    rfl
  have hopt2 : optimize dist (c9Mid dist) = Except.ok
      ((⟨[c9zBaseS, c9zCrit, c9zLowS],
        [⟨0, 250, 10, [0, 2],
          calculateRouteDistance (mGet (buildDistanceMatrix dist [c9zBaseS, c9zCritS, c9zLow]))
            [0, 2], 0 + 1⟩],
        buildDistanceMatrix dist [c9zBaseS, c9zCritS, c9zLow], some (0, 0)⟩ : State K),
      getResults
        (⟨[c9zBaseS, c9zCrit, c9zLowS],
          [⟨0, 250, 10, [0, 2],
            calculateRouteDistance
              (mGet (buildDistanceMatrix dist [c9zBaseS, c9zCritS, c9zLow])) [0, 2], 0 + 1⟩],
          buildDistanceMatrix dist [c9zBaseS, c9zCritS, c9zLow], some (0, 0)⟩ : State K)) := by
    unfold optimize
    dsimp only [c9Mid]
    rw [if_neg (fun h => Bool.noConfusion h)]
    rw [hsort2]
    exact congrArg (fun r : List (Drone K) × List (Zone K) × List Bool =>
      Except.ok ((⟨r.2.1, r.1, buildDistanceMatrix dist [c9zBaseS, c9zCritS, c9zLow],
          some (0, 0)⟩ : State K),
        getResults (⟨r.2.1, r.1, buildDistanceMatrix dist [c9zBaseS, c9zCritS, c9zLow],
          some (0, 0)⟩ : State K))) hassign2
  rw [hopt2]
  rfl

/-- Counterexample for claim C9 as stated, against the program's real
haversine distance: base at the origin, a low-priority request at
longitude 1, a critical request at longitude 10 (all on the equator,
round trips of about 222 km and 2224 km), one drone with battery range
250.  The first `optimize()` call routes the drone to zone index 1, but a
second call on the unmodified resulting instance routes it to zone index
2 — the second call does not reproduce the first call's routes. -/
theorem optimize_second_call_differs :
    ((optimize Hav.calculateDistance (c9State : State ℝ)).toOption.map fun p =>
      p.1.drones.map fun d => d.route) = some [[0, 1]] ∧
    ((optimize Hav.calculateDistance (c9State : State ℝ)).toOption.bind fun p =>
      (optimize Hav.calculateDistance p.1).toOption.map fun q =>
        q.1.drones.map fun d => d.route) = some [[0, 2]] ∧
    ([[0, 1]] : List (List ℕ)) ≠ [[0, 2]] := by
  have e1 : Hav.calculateDistance 0 0 0 1 = 6371 * ((1 - 0) * (Real.pi / 180)) :=
    Hav.calculateDistance_equator (by norm_num) (by norm_num)
  have e2 : Hav.calculateDistance 0 0 0 10 = 6371 * ((10 - 0) * (Real.pi / 180)) :=
    Hav.calculateDistance_equator (by norm_num) (by norm_num)
  have e3 : Hav.calculateDistance 0 1 0 10 = 6371 * ((10 - 1) * (Real.pi / 180)) :=
    Hav.calculateDistance_equator (by norm_num) (by norm_num)
  have es1 : Hav.calculateDistance 0 1 0 0 = Hav.calculateDistance 0 0 0 1 :=
    Hav.calculateDistance_symm 0 1 0 0
  have es2 : Hav.calculateDistance 0 10 0 0 = Hav.calculateDistance 0 0 0 10 :=
    Hav.calculateDistance_symm 0 10 0 0
  have hπl := Real.pi_gt_three
  have hπu := Real.pi_lt_d2
  have h1 : Hav.calculateDistance 0 0 0 1 + Hav.calculateDistance 0 1 0 0 ≤ 250 := by
    rw [es1, e1]
    linarith
  have h2 : ¬(Hav.calculateDistance 0 0 0 10 + Hav.calculateDistance 0 10 0 0 ≤ 250) := by
    rw [es2, e2]
    intro h
    linarith
  have h3 : ¬(Hav.calculateDistance 0 0 0 1 + Hav.calculateDistance 0 1 0 10 +
      Hav.calculateDistance 0 10 0 0 ≤ 250) := by
    rw [e1, e3, es2, e2]
    intro h
    linarith
  refine ⟨?_, ?_, by decide⟩
  · rw [c9_first_call Hav.calculateDistance h1 h2 h3]
    rfl
  · rw [c9_first_call Hav.calculateDistance h1 h2 h3]
    show ((optimize Hav.calculateDistance (c9Mid Hav.calculateDistance)).toOption.map fun q =>
      q.1.drones.map fun d => d.route) = some [[0, 2]]
    exact c9_second_call Hav.calculateDistance h1 h2 h3

/-- Counterexample for claim C4 as stated: with only the base present,
`optimize()` does not fail with any error condition — it returns a
normal, silently-empty result (0 of 0 zones served, the drone's route
empty). -/
theorem optimize_base_only_counterexample :
    (optimize sqDist exStateC4).isOk = true ∧
    ((optimize sqDist exStateC4).toOption.map fun p =>
      (p.2.summary.zonesServed, p.2.summary.totalZones,
        p.1.drones.map (fun d => d.route))) = some (0, 0, [[]]) := by
  constructor
  · with_unfolding_all decide
  · with_unfolding_all decide

/-- Counterexample for claim C5 as stated: inserting a request with
demand `-1` and priority `7` is not rejected — the request collection
grows from empty to one entry holding those invalid values verbatim (only
the id is overwritten), and inserting a vehicle with battery range `-3`
and payload capacity `0` likewise appends it unchanged. -/
theorem addZone_invalid_accepted_counterexample :
    exZoneBad.demand ≤ 0 ∧
    (State.empty : State ℚ).zones.length = 0 ∧
    ((addZone exZoneBad State.empty).zones.map fun z => (z.id, z.priority, z.demand)) =
      [(1, 7, -1)] ∧
    exDroneBad.batteryCapacity ≤ 0 ∧
    ((addDrone exDroneBad State.empty).drones.map fun d =>
      (d.batteryCapacity, d.payloadCapacity)) = [(-3, 0)] := by
  refine ⟨?_, rfl, ?_, ?_, ?_⟩
  · with_unfolding_all decide
  · with_unfolding_all decide
  · with_unfolding_all decide
  · with_unfolding_all decide

/-- Claim C6 at its failing input: with a base, one request and an empty
fleet, `optimize()` completes with the request unserved, but the
average-battery-usage metric is the non-finite `0/0` (modelled `none`,
JavaScript `NaN`) — not the `0` the specification requires. -/
theorem optimize_empty_fleet_nan :
    ((optimize sqDist exStateC6).toOption.map fun p =>
      (p.2.summary.avgBatteryUsage, p.1.zones.map fun z => (z.id, z.served))) =
      some (none, [(0, true), (1, false)]) := by
  with_unfolding_all decide

/-- Witness for claim C1 on the concrete state `exState1`. -/
theorem optimize_capacity_invariant_witness :
    (∀ d ∈ exState1.drones, d.route = [] ∧ 0 ≤ d.payloadCapacity) ∧
    (∀ p ∈ (optimize sqDist exState1).toOption, ∀ d' ∈ p.1.drones,
      currentLoad p.1.zones d'.route ≤ d'.payloadCapacity) :=
  ⟨by with_unfolding_all decide,
    optimize_capacity_invariant sqDist exState1 (by with_unfolding_all decide)⟩

/-- Witness for claim C2 on the concrete state `exState1`. -/
theorem optimize_range_invariant_witness :
    (∀ d ∈ exState1.drones, d.route = [] ∧ 0 ≤ d.batteryCapacity) ∧
    (∀ p ∈ (optimize sqDist exState1).toOption, ∀ d' ∈ p.1.drones,
      calculateRouteDistance (mGet p.1.distanceMatrix) d'.route ≤ d'.batteryCapacity) :=
  ⟨by with_unfolding_all decide,
    optimize_range_invariant sqDist exState1 (by with_unfolding_all decide)⟩

/-- Witness for claim C3 on the concrete state `exState1`. -/
theorem optimize_exclusivity_invariant_witness :
    (∀ d ∈ exState1.drones, d.route = []) ∧
    (∀ p ∈ (optimize sqDist exState1).toOption,
      (∀ d' ∈ p.1.drones, d'.route.Nodup) ∧
      p.1.drones.Pairwise (fun d1 d2 => ∀ z, z ≠ 0 → z ∈ d1.route → z ∉ d2.route)) :=
  ⟨by with_unfolding_all decide,
    optimize_exclusivity_invariant sqDist exState1 (by with_unfolding_all decide)⟩

/-- Witness for claim C7 on a concrete symmetric matrix and route. -/
theorem twoOptOptimize_improvement_witness :
    (∀ a b : ℕ, gapM a b = gapM b a) ∧
    (List.Perm (twoOptOptimize gapM 100 [0, 2, 1, 3]) [0, 2, 1, 3] ∧
    calculateRouteDistance gapM (twoOptOptimize gapM 100 [0, 2, 1, 3]) ≤
      calculateRouteDistance gapM [0, 2, 1, 3]) :=
  ⟨fun a b => by simp [gapM, Nat.max_comm, Nat.min_comm],
    twoOptOptimize_improvement gapM 100 [0, 2, 1, 3]
      (fun a b => by simp [gapM, Nat.max_comm, Nat.min_comm])⟩

/-- Witness for the amended claim C4 on the concrete state `exStateC4`. -/
theorem optimize_base_only_returns_ok_witness :
    (exStateC4.zones = [(⟨0, 0, 0, 0, 0, false⟩ : Zone ℚ)] ∧
      (⟨0, 0, 0, 0, 0, false⟩ : Zone ℚ).id = 0 ∧
      ∀ d ∈ exStateC4.drones, d.route = []) ∧
    ((optimize sqDist exStateC4).isOk = true ∧
    ∀ p ∈ (optimize sqDist exStateC4).toOption,
      p.2.summary.zonesServed = 0 ∧ p.2.summary.totalZones = 0 ∧
      ∀ d' ∈ p.1.drones, d'.route = []) :=
  ⟨⟨rfl, rfl, by decide⟩,
    optimize_base_only_returns_ok sqDist exStateC4 ⟨0, 0, 0, 0, 0, false⟩ rfl rfl
      (by decide)⟩

/-- Witness for the amended claim C5 on the concrete invalid inputs. -/
theorem addZone_addDrone_no_validation_witness :
    ((exZoneBad.demand ≤ 0 ∨
        (exZoneBad.priority ≠ 1 ∧ exZoneBad.priority ≠ 2 ∧ exZoneBad.priority ≠ 3)) ∧
      (exDroneBad.batteryCapacity ≤ 0 ∨ exDroneBad.payloadCapacity ≤ 0)) ∧
    ((addZone exZoneBad (State.empty : State ℚ)).zones.length =
        (State.empty : State ℚ).zones.length + 1 ∧
    ((addZone exZoneBad (State.empty : State ℚ)).zones.getLast?).map
      (fun w => (w.priority, w.demand, w.lat, w.lng)) =
      some (exZoneBad.priority, exZoneBad.demand, exZoneBad.lat, exZoneBad.lng) ∧
    (addDrone exDroneBad (State.empty : State ℚ)).drones =
      (State.empty : State ℚ).drones ++ [exDroneBad]) :=
  ⟨⟨by with_unfolding_all decide, by with_unfolding_all decide⟩,
    addZone_addDrone_no_validation State.empty exZoneBad exDroneBad
      (by with_unfolding_all decide) (by with_unfolding_all decide)⟩

end DDO
